import Mathlib

/-!
Shallow embedding of the sync engine of the notion-blog-api repository
(src/app/notion.py, src/app/core/database.py, src/app/models.py).

Modelling conventions:
* ISO-8601 timestamp strings are abstracted by `IsoStr`: `IsoStr.good t` is a
  non-empty string that `datetime.fromisoformat` parses to the (abstract)
  instant `t : Nat`; `IsoStr.bad` is a non-empty string on which
  `datetime.fromisoformat` raises `ValueError`.  `Option IsoStr` with `none`
  covers both a JSON `null`/missing value and the empty string (both falsy in
  Python, handled by the `if not value` guards).
* Rich-text concatenation done by `_get_text_title` / `_get_rich_text` is
  abstracted: `Props.title` / `Props.slug` carry the already-concatenated
  plain text (`none` for an absent field or an empty concatenation).
* Python exceptions are `Except` errors; `session_scope`
  (src/app/core/database.py) commits the session state on success and on an
  exception rolls back every database mutation of the pass and re-raises,
  which the embedding renders by returning the initial `DbState` together
  with the error.
* Network and filesystem effects (HTTP responses, image decoding, S3 upload,
  local file writes) are supplied by explicit oracle values describing the
  outcome each call would have; the code's branching on those outcomes is
  translated literally.
-/

/-- Abstract ISO-8601 date/time string, see module docstring. -/
inductive IsoStr where
  | good (t : Nat)
  | bad
deriving DecidableEq, Repr

/-- `datetime.fromisoformat(value.replace("Z", "+00:00"))`: yields the parsed
instant for a well-formed string and raises `ValueError` otherwise. -/
inductive SyncErr where
  | runtimeError                 -- RuntimeError("... is not set")
  | connectionError              -- requests connection failure (no response)
  | httpError (status : Nat)     -- requests.HTTPError from raise_for_status
  | parseError                   -- ValueError from datetime.fromisoformat
  | noneId                       -- session.get(NotionPage, None): item without "id"
  | integrityError               -- commit-time violation of the page_tags primary key
deriving DecidableEq, Repr

/-- Python truthiness of an optional string: `None` and `""` are falsy. -/
def truthyStr : Option String → Bool
  | none => false
  | some s => s ≠ ""

/-- Python `a or b` on optional strings (used for `local_cover_path or parsed.get("cover_url")`). -/
def pyOr (a b : Option String) : Option String :=
  match a with
  | some s => if s = "" then b else some s
  | none => b

/-- One option of a `multi_select` / `select` property: `{"id", "name", "color"}`. -/
structure TagSel where
  id : Option String := none
  name : Option String := none
  color : Option String := none
deriving DecidableEq, Repr

/-- A `status` property's value: `{"id", "name", "color"}`. -/
structure StatusSel where
  id : Option String := none
  name : Option String := none
  color : Option String := none
deriving DecidableEq, Repr

/-- `{"start": ..., "end": ...}` of a date property value. -/
structure DateVal where
  start : Option IsoStr := none
  endTime : Option IsoStr := none
deriving DecidableEq, Repr

/-- A date-typed property: `{"date": {...} | null}`. -/
structure DateField where
  date : Option DateVal := none
deriving DecidableEq, Repr

/-- A multi_select-typed property: `{"multi_select": [...] | null}`. -/
structure TagsField where
  multiSelect : Option (List TagSel) := none
deriving DecidableEq, Repr

/-- `item["properties"]`, restricted to the property names `_parse_properties`
reads.  Absent-or-falsy (empty dict) properties are `none`. -/
structure Props where
  /-- `_get_text_title(props.get("이름") or props.get("Name") or {})`, abstracted. -/
  title : Option String := none
  /-- `_get_rich_text(props.get("slug") or {})`, abstracted. -/
  slug : Option String := none
  /-- `props.get("작성일")` -/
  dateWritten : Option DateField := none
  /-- `props.get("Date")` -/
  dateEn : Option DateField := none
  /-- `props.get("기간")` -/
  datePeriod : Option DateField := none
  /-- `_extract_status(props.get("상태") or props.get("Status") or {})`, abstracted. -/
  statusProp : Option StatusSel := none
  /-- `props.get("태그")` -/
  tagsKr : Option TagsField := none
  /-- `props.get("Tags")` -/
  tagsEn : Option TagsField := none
  /-- `props.get("기술")` -/
  tagsSkill : Option TagsField := none
  /-- `(props.get("종류") or {}).get("select")` -/
  kindSelect : Option TagSel := none
  /-- `(props.get("PIN") or {}).get("checkbox", False)`; `none` when the PIN
  property or its checkbox value is absent (defaulted to `False`). -/
  pinCheckbox : Option Bool := none
deriving DecidableEq, Repr

/-- `item["cover"]["file"]`: `{"url": ..., "expiry_time": ...}`. -/
structure FileRef where
  url : Option String := none
  expiryTime : Option IsoStr := none
deriving DecidableEq, Repr

/-- `item["cover"]`: `{"type": ..., "file": ...}` (or absent). -/
structure CoverRef where
  type : String := "file"
  file : Option FileRef := none
deriving DecidableEq, Repr

/-- One element of the `results` list returned by the collection query. -/
structure Item where
  id : Option String := none
  /-- `item["parent"]["database_id"]` -/
  parentDatabaseId : Option String := none
  props : Props := {}
  cover : Option CoverRef := none
  url : Option String := none
  publicUrl : Option String := none
  createdTime : Option IsoStr := none
  lastEditedTime : Option IsoStr := none
  /-- `(item.get("created_by") or {}).get("id")` -/
  createdById : Option String := none
  /-- `(item.get("last_edited_by") or {}).get("id")` -/
  lastEditedById : Option String := none
  archived : Option Bool := none
  inTrash : Option Bool := none
deriving DecidableEq, Repr

/-- The dict returned by `_parse_properties` (plus the `status_id` key the
sync loop inserts before calling `_upsert_page_and_relations`). -/
structure Parsed where
  databaseId : Option String := none
  props : Props := {}
  title : Option String := none
  slug : Option String := none
  writtenDate : Option IsoStr := none
  periodStart : Option IsoStr := none
  periodEnd : Option IsoStr := none
  statusProp : Option StatusSel := none
  tagsProp : List TagSel := []
  coverUrl : Option String := none
  coverExpiryTime : Option IsoStr := none
  itemUrl : Option String := none
  publicUrl : Option String := none
  createdTime : Option IsoStr := none
  lastEditedTime : Option IsoStr := none
  createdById : Option String := none
  lastEditedById : Option String := none
  archived : Option Bool := none
  inTrash : Option Bool := none
  pin : Bool := false
  statusId : Option String := none
deriving DecidableEq, Repr

/-- One row of the `notion_pages` table (src/app/models.py, class NotionPage).
`tags` is the page's association collection: the list of tag ids reachable
through the `page_tags` secondary table, in collection order (one entry per
`page.tags.append`). -/
structure PageRow where
  id : String
  databaseId : Option String := none
  url : Option String := none
  publicUrl : Option String := none
  createdTime : Option Nat := none
  lastEditedTime : Option Nat := none
  createdByUserId : Option String := none
  lastEditedByUserId : Option String := none
  archived : Bool := false
  inTrash : Bool := false
  coverUrl : Option String := none
  coverExpiryTime : Option Nat := none
  icon : Option String := none
  pin : Bool := false
  isDeleted : Bool := false
  statusId : Option String := none
  slug : Option String := none
  title : Option String := none
  writtenDate : Option Nat := none
  rawProperties : Props := {}
  tags : List String := []
deriving DecidableEq, Repr

/-- One row of the `tags` table. -/
structure TagRow where
  id : String
  name : Option String := none
  color : Option String := none
deriving DecidableEq, Repr

/-- One row of the `statuses` table. -/
structure StatusRow where
  id : String
  name : Option String := none
  color : Option String := none
deriving DecidableEq, Repr

/-- The relational store touched by a sync pass. -/
structure DbState where
  pages : List PageRow := []
  tags : List TagRow := []
  statuses : List StatusRow := []
deriving DecidableEq, Repr

/-- `session.get(NotionPage, pid)`: primary-key lookup. -/
def getPage (st : DbState) (pid : String) : Option PageRow :=
  st.pages.find? (fun p => p.id = pid)

/-- `session.get(Tag, tid)`. -/
def getTagRow (st : DbState) (tid : String) : Option TagRow :=
  st.tags.find? (fun t => t.id = tid)

/-- `session.get(Status, sid)`. -/
def getStatusRow (st : DbState) (sid : String) : Option StatusRow :=
  st.statuses.find? (fun s => s.id = sid)

/-- Write back a (new or mutated) page object: replaces the row with the same
primary key in place, or appends a freshly added row. -/
def setPages : List PageRow → PageRow → List PageRow
  | [], p => [p]
  | q :: rest, p => if q.id = p.id then p :: rest else q :: setPages rest p

def putPage (st : DbState) (p : PageRow) : DbState :=
  { st with pages := setPages st.pages p }

/-- `_iso_to_dt` (src/app/notion.py lines 235-238): `None`/empty input yields
`None`; a malformed string raises `ValueError`. -/
def fromisoformat : IsoStr → Except SyncErr Nat
  | .good t => .ok t
  | .bad => .error .parseError

def _iso_to_dt : Option IsoStr → Except SyncErr (Option Nat)
  | none => .ok none
  | some s => (fromisoformat s).map some

/-- `_extract_tags`: `prop.get("multi_select") or []`. -/
def _extract_tags (p : TagsField) : List TagSel :=
  p.multiSelect.getD []

/-- `_compute_incoming_ids` (lines 272-278): ids of the fetched items,
skipping falsy (absent or empty) ids.  The Python `set` is rendered as a
list; only membership and emptiness are ever consumed. -/
def _compute_incoming_ids (results : List Item) : List String :=
  results.filterMap (fun item =>
    match item.id with
    | some s => if s ≠ "" then some s else none
    | none => none)

/-- `_mark_missing_pages_deleted` (lines 281-291). -/
def _mark_missing_pages_deleted (st : DbState) (incomingIds : List String)
    (databaseId : String) : DbState :=
  if incomingIds = [] then st
  else
    let existingIds := (st.pages.filter (fun p => p.databaseId = some databaseId)).map (·.id)
    let missingIds := existingIds.filter (fun i => i ∉ incomingIds)
    if missingIds = [] then st
    else
      { st with pages := st.pages.map (fun p =>
          if p.databaseId = some databaseId ∧ p.id ∈ missingIds then
            { p with isDeleted := true }
          else p) }

/-- `_parse_properties` (lines 294-358). -/
def _parse_properties (item : Item) : Parsed :=
  let props := item.props
  let writtenDateProp := props.dateWritten <|> props.dateEn <|> props.datePeriod
  let writtenDate := (writtenDateProp.bind (·.date)).bind (·.start)
  let periodDate := props.datePeriod.bind (·.date)
  let periodStart := periodDate.bind (·.start)
  let periodEnd := periodDate.bind (·.endTime)
  let tagsProp :=
    (([props.tagsKr, props.tagsEn, props.tagsSkill].filterMap id).map _extract_tags).flatten
      ++ (match props.kindSelect with
          | some ts => [{ id := ts.id, name := ts.name, color := ts.color : TagSel }]
          | none => [])
  let coverPair : Option String × Option IsoStr :=
    match item.cover with
    | some c =>
      match c.file with
      | some f => if c.type = "file" then (f.url, f.expiryTime) else (none, none)
      | none => (none, none)
    | none => (none, none)
  { databaseId := item.parentDatabaseId
    props := props
    title := props.title
    slug := props.slug
    writtenDate := writtenDate
    periodStart := periodStart
    periodEnd := periodEnd
    statusProp := props.statusProp
    tagsProp := tagsProp
    coverUrl := coverPair.1
    coverExpiryTime := coverPair.2
    itemUrl := item.url
    publicUrl := item.publicUrl
    createdTime := item.createdTime
    lastEditedTime := item.lastEditedTime
    createdById := item.createdById
    lastEditedById := item.lastEditedById
    archived := item.archived
    inTrash := item.inTrash
    pin := props.pinCheckbox.getD false
    statusId := none }

/-- `_upsert_status_if_needed` (lines 361-370).  Returns the updated store and
the status id handed back to the loop (`None` for a falsy id). -/
def _upsert_status_if_needed (st : DbState) (statusProp : Option StatusSel) :
    DbState × Option String :=
  match statusProp with
  | none => (st, none)
  | some sp =>
    match sp.id with
    | none => (st, none)
    | some sid =>
      if sid = "" then (st, none)
      else if (getStatusRow st sid).isSome then (st, some sid)
      else ({ st with statuses := st.statuses ++ [{ id := sid, name := sp.name, color := sp.color }] },
            some sid)

/-! ## Cover asset pipeline -/

/-- Decidable equality for `Except`, needed to evaluate concrete runs. -/
instance {e a : Type} [DecidableEq e] [DecidableEq a] : DecidableEq (Except e a) := fun x y =>
  match x, y with
  | .ok v, .ok w => if h : v = w then .isTrue (by rw [h]) else .isFalse (by intro hc; cases hc; exact h rfl)
  | .error v, .error w => if h : v = w then .isTrue (by rw [h]) else .isFalse (by intro hc; cases hc; exact h rfl)
  | .ok _, .error _ => .isFalse (by intro hc; cases hc)
  | .error _, .ok _ => .isFalse (by intro hc; cases hc)

/-- Outcome of `s3.upload_file` in `_download_cover_if_available`. -/
inductive UploadOutcome where
  | ok
  | clientError   -- botocore ClientError
  | otherError    -- any other Exception
deriving DecidableEq, Repr

/-- Result of `_download_stream_to_temp` when it returns a triple:
content type and total byte count (the temp path is abstracted away). -/
structure DownloadRes where
  ctype : String := ""
  totalBytes : Nat := 0
deriving DecidableEq, Repr

/-- Result of `_process_image_to_limit` when it succeeds: the content type
and the extension of the processed file. -/
structure ProcessedRes where
  ctype : String := "image/jpeg"
  ext : String := ".jpg"
deriving DecidableEq, Repr

/-- Oracle for the effects performed by one `_download_cover_if_available`
call: what each network / imaging / storage operation would return. -/
structure CoverOutcome where
  /-- `_download_stream_to_temp(cover_url)`: `none` models a failed download
  or one aborted by the hard byte ceiling (the function returns `None`). -/
  download : Option DownloadRes := none
  /-- whether `PIL.Image.open` succeeds on the downloaded bytes (consulted
  only when the content type does not start with `image/`). -/
  pillowOpens : Bool := false
  /-- `_process_image_to_limit(...)`: `none` models a processing failure. -/
  processed : Option ProcessedRes := none
  s3Upload : UploadOutcome := .ok
  /-- whether the local `open`/`copyfileobj` write (fallback or local branch)
  succeeds. -/
  localWriteOk : Bool := true
deriving DecidableEq, Repr

/-- The env-driven configuration read at module scope in src/app/notion.py. -/
structure CoverConfig where
  coverDownloadEnabled : Bool := true    -- COVER_DOWNLOAD_ENABLED
  s3Bucket : Option String := none       -- S3_BUCKET
  s3PrefixCfg : String := ""             -- S3_PREFIX, already stripped of "/"
  s3Region : String := "ap-northeast-2"  -- AWS_REGION default
  s3PublicBaseUrl : String := ""         -- S3_PUBLIC_BASE_URL, rstripped of "/"
deriving DecidableEq, Repr

/-- Exceptions that can escape the body of `_download_cover_if_available`
(they are all caught by the outer `except Exception` at lines 531-533). -/
inductive CoverErr where
  | fallbackFailed   -- local fallback write after an S3 error re-raised (lines 477-479, 491-493)
  | localSaveFailed  -- local-branch write raised (propagates through the `finally` at 518-527)
deriving DecidableEq, Repr

/-- `content_type.startswith("image/")`, expressed over the character
sequence (Lean's `String.startsWith` does not evaluate in the kernel). -/
def contentTypeIsImage (s : String) : Bool :=
  "image/".data.isPrefixOf s.data

/-- The body of `_download_cover_if_available` (lines 373-530): everything up
to, but not including, the outer exception handler. -/
def coverBody (cfg : CoverConfig) (out : CoverOutcome) (coverUrl : Option String)
    (pageId : String) : Except CoverErr (Option String) :=
  if ¬ truthyStr coverUrl then .ok none                  -- `if not cover_url`
  else if ¬ cfg.coverDownloadEnabled then .ok none       -- `if not COVER_DOWNLOAD_ENABLED`
  else
    match out.download with
    | none => .ok none                                   -- download failed or hard limit
    | some dl =>
      -- content-type check, with PIL fallback for non-image content types
      if ¬ (contentTypeIsImage dl.ctype ∨ out.pillowOpens) then .ok none
      else
        match out.processed with
        | none => .ok none                               -- `if not proc`
        | some proc =>
          let filename := pageId ++ proc.ext
          if truthyStr cfg.s3Bucket then                 -- `if S3_BUCKET:`
            let bucket := cfg.s3Bucket.getD ""
            -- key = "/".join([p for p in [S3_PREFIX, filename] if p])
            let key := if cfg.s3PrefixCfg = "" then filename
                       else cfg.s3PrefixCfg ++ "/" ++ filename
            match out.s3Upload with
            | .ok =>
              if cfg.s3PublicBaseUrl ≠ "" then
                .ok (some (cfg.s3PublicBaseUrl ++ "/" ++ key))
              else
                .ok (some ("https://" ++ bucket ++ ".s3." ++ cfg.s3Region
                      ++ ".amazonaws.com/" ++ key))
            | .clientError =>
              if out.localWriteOk then .ok (some ("/static/covers/" ++ filename))
              else .error .fallbackFailed
            | .otherError =>
              if out.localWriteOk then .ok (some ("/static/covers/" ++ filename))
              else .error .fallbackFailed
          else
            if out.localWriteOk then .ok (some ("/static/covers/" ++ filename))
            else .error .localSaveFailed

/-- `_download_cover_if_available` (lines 373-533): the outer
`except Exception: ... return None` makes the pipeline total. -/
def _download_cover_if_available (cfg : CoverConfig) (out : CoverOutcome)
    (coverUrl : Option String) (pageId : String) : Option String :=
  match coverBody cfg out coverUrl pageId with
  | .ok r => r
  | .error _ => none

/-! ## Entity upsert layer -/

/-- A freshly constructed `NotionPage(id=page_id, database_id=database_id)`:
every other column starts at its model default. -/
def freshPage (pageId : String) (databaseId : Option String) : PageRow :=
  { id := pageId, databaseId := databaseId }

/-- The tag loop of `_upsert_page_and_relations` (lines 570-579): threads the
tag table (lazy creation) and the page's association list (one append per
occurrence; falsy ids are skipped by `continue`). -/
def upsertTagsLoop (st : DbState) (pageTags : List String) :
    List TagSel → DbState × List String
  | [] => (st, pageTags)
  | t :: rest =>
    match t.id with
    | none => upsertTagsLoop st pageTags rest
    | some tid =>
      if tid = "" then upsertTagsLoop st pageTags rest
      else
        let st' := if (getTagRow st tid).isSome then st
                   else { st with tags := st.tags ++ [{ id := tid, name := t.name, color := t.color }] }
        upsertTagsLoop st' (pageTags ++ [tid]) rest

/-- `_upsert_page_and_relations` (lines 536-580).  Field assignments follow
source order: each `datetime.fromisoformat` call can raise, in which case no
later assignment runs (the enclosing transaction discards the partial object
anyway). -/
def _upsert_page_and_relations (st : DbState) (pageId : String)
    (databaseId : Option String) (parsed : Parsed) (localCoverPath : Option String) :
    Except SyncErr (DbState × Bool) :=
  let (page0, isNew) :=
    match getPage st pageId with
    | some p => (p, false)
    | none => (freshPage pageId databaseId, true)
  match _iso_to_dt parsed.createdTime with
  | .error e => .error e
  | .ok createdTime =>
  match _iso_to_dt parsed.lastEditedTime with
  | .error e => .error e
  | .ok lastEditedTime =>
  -- `_iso_to_dt(parsed.get("cover_expiry_time")) if parsed.get("cover_expiry_time") else None`
  match (match parsed.coverExpiryTime with
         | some s => (fromisoformat s).map some
         | none => (.ok none : Except SyncErr (Option Nat))) with
  | .error e => .error e
  | .ok coverExpiryTime =>
  -- `datetime.fromisoformat(written_date).date() if written_date else None`
  -- (`.date()` is abstracted into the parsed instant)
  match (match parsed.writtenDate with
         | some s => (fromisoformat s).map some
         | none => (.ok none : Except SyncErr (Option Nat))) with
  | .error e => .error e
  | .ok writtenDate =>
    let page1 : PageRow :=
      { page0 with
        url := parsed.itemUrl
        publicUrl := parsed.publicUrl
        createdTime := createdTime
        lastEditedTime := lastEditedTime
        createdByUserId := parsed.createdById
        lastEditedByUserId := parsed.lastEditedById
        archived := parsed.archived.getD false       -- bool(parsed.get("archived"))
        inTrash := parsed.inTrash.getD false
        coverUrl := pyOr localCoverPath parsed.coverUrl
        coverExpiryTime := coverExpiryTime
        icon := none
        pin := parsed.pin
        statusId := parsed.statusId
        slug := parsed.slug
        title := parsed.title
        writtenDate := writtenDate
        rawProperties := parsed.props
        isDeleted := false
        tags := [] }                                 -- page.tags.clear()
    let (st1, pageTags) := upsertTagsLoop st [] parsed.tagsProp
    .ok (putPage st1 { page1 with tags := pageTags }, isNew)

/-! ## Remote collection fetcher and HTTP retry configuration -/

/-- One HTTP response the remote collection endpoint would produce.  A list of
`HttpResponse`s is the oracle for successive attempts against the same URL:
each physical request consumes the next element. -/
structure HttpResponse where
  status : Nat := 200
  results : List Item := []
deriving DecidableEq, Repr

/-- `response.raise_for_status()`: raises `requests.HTTPError` for 4xx/5xx. -/
def raise_for_status (r : HttpResponse) : Except SyncErr Unit :=
  if r.status < 400 then .ok () else .error (.httpError r.status)

/-- `fetch_notion_data_for_db` (lines 227-232): one plain `requests.post`
(NOT the retry-mounted session from `_get_http_session`), then
`raise_for_status`, then `response.json().get("results", [])`.  Exactly one
attempt from the oracle is consumed. -/
def fetch_notion_data_for_db (_databaseId : String) (attempts : List HttpResponse) :
    Except SyncErr (List Item) :=
  match attempts with
  | [] => .error .connectionError
  | r :: _ => do
    raise_for_status r
    return r.results

/-- `status_forcelist` of the `Retry` object built in `_get_http_session`
(lines 102-107). -/
def retryStatusForcelist : List Nat := [429, 500, 502, 503, 504]

/-- `total=3` of the same `Retry` object. -/
def retryTotal : Nat := 3

/-- Status-retry behaviour of a request issued through the session returned
by `_get_http_session` (the session the cover downloads use): modelled from
urllib3's `Retry` — while the response status is in `status_forcelist` and
retry budget remains, the request is retried (backoff timing elided);
otherwise the response is returned.  Exhausting the budget on a forcelisted
status surfaces as an error. -/
def sessionRequestWithRetry : Nat → List HttpResponse → Except SyncErr HttpResponse
  | _, [] => .error .connectionError
  | 0, r :: _ =>
    if r.status ∈ retryStatusForcelist then .error (.httpError r.status) else .ok r
  | n + 1, r :: rest =>
    if r.status ∈ retryStatusForcelist then sessionRequestWithRetry n rest else .ok r

/-! ## Revalidation notifier -/

/-- Outcome of the `requests.post` inside `_post_revalidate`. -/
inductive RevOutcome where
  | success (status : Nat)      -- 2xx/3xx: raise_for_status passes
  | httpFailure (status : Nat)  -- non-2xx: logged, swallowed
  | netError                    -- network exception: logged, swallowed
deriving DecidableEq, Repr

/-- Configuration and effect oracle for `_post_revalidate`. -/
structure RevConfig where
  /-- `os.getenv("REVALIDATE_URL", "https://jblog.my/api/revalidate")` -/
  revalidateUrl : String := "https://jblog.my/api/revalidate"
  /-- `os.getenv("WEBHOOK_SECRET")` -/
  webhookSecret : Option String := none
  /-- what the webhook POST would return -/
  postOutcome : RevOutcome := .success 200
deriving DecidableEq, Repr

/-- What a `_post_revalidate` call did (its only observable effect). -/
inductive RevAction where
  | skippedMissing                                        -- missing url/secret: no request
  | posted (url tag secret : String) (outcome : RevOutcome)  -- one POST with x-webhook-secret
deriving DecidableEq, Repr

/-- Python's `str.strip()`: drop leading and trailing whitespace, expressed
over the character sequence (Lean's `String.trim` does not evaluate in the
kernel). -/
def pyStrip (s : String) : String :=
  ⟨((s.data.dropWhile Char.isWhitespace).reverse.dropWhile Char.isWhitespace).reverse⟩

/-- `_post_revalidate` (lines 60-84): fire-and-forget; every failure path is
caught and logged, the function always returns normally. -/
def _post_revalidate (cfg : RevConfig) (tag : String) : RevAction :=
  let url := pyStrip cfg.revalidateUrl
  let secret := pyStrip (cfg.webhookSecret.getD "")
  if url = "" ∨ secret = "" then .skippedMissing
  else .posted url tag secret cfg.postOutcome

/-! ## Reconciler: the per-collection sync pass -/

/-- Whole-module configuration of src/app/notion.py. -/
structure SyncConfig where
  postDatabaseId : Option String := none     -- NOTION_POST_DATABASE_ID
  projectDatabaseId : Option String := none  -- NOTION_PROJECT_DATABASE_ID
  cover : CoverConfig := {}
  rev : RevConfig := {}
deriving Repr

/-- Per-page effect oracle for a pass: outcome of the cover pipeline's
external calls for each page id. -/
structure SyncEnv where
  coverOutcome : String → CoverOutcome

/-- The skip test of the sync loops (lines 599, 646):
`existing_page and existing_page.last_edited_time and item_last_edited and
existing_page.last_edited_time == item_last_edited`
(a datetime object is always truthy; a NULL column is falsy). -/
def skipCheck (existing : Option PageRow) (itemLastEdited : Option Nat) : Bool :=
  match existing, itemLastEdited with
  | some p, some t =>
    match p.lastEditedTime with
    | some s => s = t
    | none => false
  | _, _ => false

/-- Result of running the per-item loop: the external cover-pipeline calls
already performed (by page id, not undone on failure) and either the session
state with the created/updated counters or the first exception. -/
structure LoopOut where
  calls : List String
  res : Except SyncErr (DbState × Nat × Nat)
deriving DecidableEq, Repr

/-- The `for item in results:` body shared verbatim by `sync_notion_pages`
(lines 594-618) and `sync_notion_projects` (lines 641-665). -/
def syncLoop (cfg : CoverConfig) (env : SyncEnv) :
    List Item → DbState → Nat → Nat → List String → LoopOut
  | [], db, created, updated, calls => ⟨calls, .ok (db, created, updated)⟩
  | item :: rest, db, created, updated, calls =>
    match item.id with
    | none =>
      -- `session.get(NotionPage, None)`: a missing "id" key cannot yield a
      -- row and the record cannot be persisted under a NULL primary key;
      -- modelled as the pass-aborting exception it produces.
      ⟨calls, .error .noneId⟩
    | some pageId =>
      match _iso_to_dt item.lastEditedTime with
      | .error e => ⟨calls, .error e⟩
      | .ok itemLastEdited =>
        let existingPage := getPage db pageId
        if skipCheck existingPage itemLastEdited then
          syncLoop cfg env rest db created updated calls
        else
          let parsed0 := _parse_properties item
          let su := _upsert_status_if_needed db parsed0.statusProp
          let parsed := { parsed0 with statusId := su.2 }
          let localCoverPath :=
            _download_cover_if_available cfg (env.coverOutcome pageId) parsed.coverUrl pageId
          let calls' := calls ++ [pageId]
          match _upsert_page_and_relations su.1 pageId parsed.databaseId parsed localCoverPath with
          | .error e => ⟨calls', .error e⟩
          | .ok (db2, isNew) =>
            if isNew then syncLoop cfg env rest db2 (created + 1) updated calls'
            else syncLoop cfg env rest db2 created (updated + 1) calls'

/-- The `page_tags` association table declares the composite primary key
(page_id, tag_id) (src/app/models.py lines 25-30): flushing a page whose
association collection holds the same tag id twice violates it, so
`session.commit()` raises.  Other schema constraints (NOT NULL columns, the
unique status name) are not modelled. -/
def pageTagsPkViolated (db : DbState) : Bool :=
  db.pages.any (fun p => ¬ p.tags.Nodup)

/-- Counters returned by a successful pass. -/
structure SyncResult where
  created : Nat
  updated : Nat
  total : Nat
deriving DecidableEq, Repr

/-- Everything observable about one pass: the persisted store after the pass
(rolled back to the initial store on failure by `session_scope`), the result
or propagated exception, the cover-pipeline invocations (external effects,
not rolled back), and the revalidation action if one was taken. -/
structure PassOut where
  db : DbState
  result : Except SyncErr SyncResult
  coverCalls : List String
  revalidated : Option RevAction
deriving DecidableEq, Repr

/-- The body both sync entry points share once the snapshot is fetched:
`with session_scope() as session:` wrapping `_compute_incoming_ids`,
`_mark_missing_pages_deleted` and the item loop, then the commit, then the
best-effort revalidation with the fixed tag `"posts"` (lines 590-627 and
637-673; line 670 also posts `"posts"` for the projects pass). -/
def runPass (databaseId : String) (cfg : SyncConfig) (env : SyncEnv)
    (results : List Item) (db0 : DbState) : PassOut :=
  match syncLoop cfg.cover env results
      (_mark_missing_pages_deleted db0 (_compute_incoming_ids results) databaseId) 0 0 [] with
  | ⟨calls, .error e⟩ => ⟨db0, .error e, calls, none⟩            -- rollback, re-raise
  | ⟨calls, .ok (db2, created, updated)⟩ =>
    if pageTagsPkViolated db2 then
      ⟨db0, .error .integrityError, calls, none⟩                 -- commit raises, rollback
    else
      ⟨db2, .ok ⟨created, updated, results.length⟩, calls,
        if created + updated > 0 then some (_post_revalidate cfg.rev "posts") else none⟩

/-- `sync_notion_pages` (lines 583-627). -/
def sync_notion_pages (cfg : SyncConfig) (env : SyncEnv)
    (attempts : List HttpResponse) (db0 : DbState) : PassOut :=
  if ¬ truthyStr cfg.postDatabaseId then
    ⟨db0, .error .runtimeError, [], none⟩                        -- RuntimeError, nothing runs
  else
    let databaseId := cfg.postDatabaseId.getD ""
    match fetch_notion_data_for_db databaseId attempts with
    | .error e => ⟨db0, .error e, [], none⟩                      -- fetch precedes the session
    | .ok results => runPass databaseId cfg env results db0

/-- `sync_notion_projects` (lines 630-673): identical to `sync_notion_pages`
but keyed by NOTION_PROJECT_DATABASE_ID; its revalidation call also passes
the tag `"posts"` (line 670). -/
def sync_notion_projects (cfg : SyncConfig) (env : SyncEnv)
    (attempts : List HttpResponse) (db0 : DbState) : PassOut :=
  if ¬ truthyStr cfg.projectDatabaseId then
    ⟨db0, .error .runtimeError, [], none⟩
  else
    let databaseId := cfg.projectDatabaseId.getD ""
    match fetch_notion_data_for_db databaseId attempts with
    | .error e => ⟨db0, .error e, [], none⟩
    | .ok results => runPass databaseId cfg env results db0

/-! ## Helper lemmas about the store primitives -/

lemma find_setPages_self (l : List PageRow) (p : PageRow) :
    (setPages l p).find? (fun q => q.id = p.id) = some p := by
  induction l with
  | nil => simp [setPages, List.find?]
  | cons q rest ih =>
    by_cases h : q.id = p.id
    · simp [setPages, h, List.find?]
    · simp [setPages, h, List.find?, ih]

lemma find_setPages_other (l : List PageRow) (p : PageRow) (pid : String)
    (h : pid ≠ p.id) :
    (setPages l p).find? (fun q => q.id = pid) = l.find? (fun q => q.id = pid) := by
  have hps : p.id ≠ pid := fun hc => h hc.symm
  induction l with
  | nil => simp [setPages, List.find?, hps]
  | cons q rest ih =>
    by_cases hq : q.id = p.id
    · have hqp : q.id ≠ pid := by rw [hq]; exact hps
      simp [setPages, hq, List.find?, hps, hqp]
    · by_cases hpid : q.id = pid
      · simp only [setPages, if_neg hq]
        simp [List.find?, hpid]
      · simp only [setPages, if_neg hq]
        simp [List.find?, hpid, ih]

lemma getPage_putPage_self (st : DbState) (p : PageRow) :
    getPage (putPage st p) p.id = some p := by
  simpa [getPage, putPage] using find_setPages_self st.pages p

lemma getPage_putPage_other (st : DbState) (p : PageRow) (pid : String) (h : pid ≠ p.id) :
    getPage (putPage st p) pid = getPage st pid := by
  simpa [getPage, putPage] using find_setPages_other st.pages p pid h

lemma map_id_setPages (l : List PageRow) (p : PageRow) :
    (setPages l p).map (·.id) =
      (if p.id ∈ l.map (·.id) then l.map (·.id) else l.map (·.id) ++ [p.id]) := by
  induction l with
  | nil => simp [setPages]
  | cons q rest ih =>
    by_cases h : q.id = p.id
    · simp [setPages, h]
    · have h' : ¬ (p.id = q.id) := fun hc => h hc.symm
      by_cases hm : p.id ∈ rest.map (·.id) <;>
        simp [setPages, h, ih, h', hm]

lemma nodup_setPages (l : List PageRow) (p : PageRow)
    (h : (l.map (·.id)).Nodup) : ((setPages l p).map (·.id)).Nodup := by
  rw [map_id_setPages]
  by_cases hm : p.id ∈ l.map (·.id)
  · simpa [hm] using h
  · simp only [hm, if_false]
    exact List.Nodup.append h (List.nodup_singleton _) (by simpa using hm)

lemma find_id_eq_some_of_mem {l : List PageRow} {p : PageRow}
    (hnd : (l.map (·.id)).Nodup) (hmem : p ∈ l) :
    l.find? (fun q => q.id = p.id) = some p := by
  induction l with
  | nil => cases hmem
  | cons q rest ih =>
    rcases List.mem_cons.mp hmem with h | h
    · subst h; simp [List.find?]
    · have hq : q.id ≠ p.id := by
        intro hc
        have hm : p.id ∈ rest.map (·.id) := List.mem_map_of_mem (·.id) h
        simp only [List.map_cons, List.nodup_cons] at hnd
        exact hnd.1 (hc ▸ hm)
      have hnd' : (rest.map (·.id)).Nodup := by
        simp only [List.map_cons, List.nodup_cons] at hnd
        exact hnd.2
      simp [List.find?, hq, ih hnd' h]

lemma getPage_eq_some_of_mem {st : DbState} {p : PageRow}
    (hnd : (st.pages.map (·.id)).Nodup) (hmem : p ∈ st.pages) :
    getPage st p.id = some p :=
  find_id_eq_some_of_mem hnd hmem

lemma mem_of_getPage_eq_some {st : DbState} {pid : String} {p : PageRow}
    (h : getPage st pid = some p) : p ∈ st.pages ∧ p.id = pid := by
  refine ⟨List.mem_of_find?_eq_some h, ?_⟩
  have := List.find?_some h
  simpa using this

lemma find_map_presId (l : List PageRow) (f : PageRow → PageRow)
    (hf : ∀ p, (f p).id = p.id) (pid : String) :
    (l.map f).find? (fun q => q.id = pid) = (l.find? (fun q => q.id = pid)).map f := by
  induction l with
  | nil => simp
  | cons q rest ih =>
    by_cases h : q.id = pid
    · simp [List.find?, hf, h]
    · simp [List.find?, hf, h, ih]

lemma setDeleted_self {p : PageRow} (h : p.isDeleted = true) :
    { p with isDeleted := true } = p := by
  cases p
  simp_all

/-- The reconciliation step, seen through a primary-key lookup: a stored row
is flipped to soft-deleted exactly when the incoming-id set is non-empty, the
row belongs to the synced collection and its id is not incoming; nothing else
about the row changes and no other row is touched. -/
lemma mark_getPage (db : DbState) (ids : List String) (dbid : String) (pid : String) :
    getPage (_mark_missing_pages_deleted db ids dbid) pid =
      (getPage db pid).map (fun p =>
        if ids ≠ [] ∧ p.databaseId = some dbid ∧ p.id ∉ ids then
          { p with isDeleted := true } else p) := by
  unfold _mark_missing_pages_deleted
  by_cases hids : ids = []
  · simp only [hids, if_pos rfl]
    cases hp : getPage db pid <;> simp [hp]
  · simp only [if_neg hids]
    set existingIds := (db.pages.filter (fun p => p.databaseId = some dbid)).map (·.id) with hex
    set missingIds := existingIds.filter (fun i => i ∉ ids) with hmi
    have hmem_missing : ∀ p ∈ db.pages, p.databaseId = some dbid →
        (p.id ∈ missingIds ↔ p.id ∉ ids) := by
      intro p hp hdb
      constructor
      · intro hin
        have := List.of_mem_filter (hmi ▸ hin)
        simpa using this
      · intro hnin
        rw [hmi]
        refine List.mem_filter.mpr ⟨?_, by simpa using hnin⟩
        rw [hex]
        refine List.mem_map_of_mem (·.id) (List.mem_filter.mpr ⟨hp, ?_⟩)
        simp [hdb]
    by_cases hmiss : missingIds = []
    · simp only [if_pos hmiss]
      cases hp : getPage db pid with
      | none => simp
      | some p =>
        obtain ⟨hpm, -⟩ := mem_of_getPage_eq_some hp
        have hcond : ¬ (ids ≠ [] ∧ p.databaseId = some dbid ∧ p.id ∉ ids) := by
          rintro ⟨-, hdb, hnin⟩
          have : p.id ∈ missingIds := (hmem_missing p hpm hdb).mpr hnin
          exact List.ne_nil_of_mem this hmiss
        simp [hcond]
    · simp only [if_neg hmiss]
      have hpres : ∀ p : PageRow,
          ((if p.databaseId = some dbid ∧ p.id ∈ missingIds then
              { p with isDeleted := true } else p) : PageRow).id = p.id := by
        intro p
        by_cases h : p.databaseId = some dbid ∧ p.id ∈ missingIds <;> simp [h]
      unfold getPage
      rw [find_map_presId _ _ hpres pid]
      cases hp : db.pages.find? (fun p => p.id = pid) with
      | none => rfl
      | some p =>
        have hgp : getPage db pid = some p := hp
        obtain ⟨hpm, -⟩ := mem_of_getPage_eq_some hgp
        simp only [Option.map_some']
        congr 1
        by_cases hdb : p.databaseId = some dbid
        · by_cases hnin : p.id ∉ ids
          · rw [if_pos ⟨hdb, (hmem_missing p hpm hdb).mpr hnin⟩, if_pos ⟨hids, hdb, hnin⟩]
          · rw [if_neg (by rintro ⟨-, hin⟩; exact hnin ((hmem_missing p hpm hdb).mp hin)),
               if_neg (by rintro ⟨-, -, h2⟩; exact hnin h2)]
        · rw [if_neg (by rintro ⟨h1, -⟩; exact hdb h1),
             if_neg (by rintro ⟨-, h1, -⟩; exact hdb h1)]

lemma mark_pages_ids (db : DbState) (ids : List String) (dbid : String) :
    (_mark_missing_pages_deleted db ids dbid).pages.map (·.id) = db.pages.map (·.id) := by
  unfold _mark_missing_pages_deleted
  by_cases hids : ids = []
  · simp [hids]
  · simp only [if_neg hids]
    set missingIds :=
      ((db.pages.filter (fun p => p.databaseId = some dbid)).map (·.id)).filter
        (fun i => i ∉ ids) with hmi
    by_cases hmiss : missingIds = []
    · simp [hmiss]
    · simp only [if_neg hmiss, List.map_map]
      refine List.map_congr_left (fun p _ => ?_)
      by_cases h : p.databaseId = some dbid ∧ p.id ∈ missingIds
      · simp only [Function.comp_apply, if_pos h]
      · simp only [Function.comp_apply, if_neg h]

lemma mark_eq_self_of_marked {db : DbState} {ids : List String} {dbid : String}
    (h : ∀ p ∈ db.pages, p.databaseId = some dbid → p.id ∉ ids → p.isDeleted = true) :
    _mark_missing_pages_deleted db ids dbid = db := by
  unfold _mark_missing_pages_deleted
  by_cases hids : ids = []
  · simp [hids]
  · simp only [if_neg hids]
    set existingIds := (db.pages.filter (fun p => p.databaseId = some dbid)).map (·.id) with hex
    set missingIds := existingIds.filter (fun i => i ∉ ids) with hmi
    by_cases hmiss : missingIds = []
    · simp [hmiss]
    · simp only [if_neg hmiss]
      have hmap : db.pages.map (fun p =>
          if p.databaseId = some dbid ∧ p.id ∈ missingIds then { p with isDeleted := true }
          else p) = db.pages := by
        have hcg : db.pages.map (fun p =>
            if p.databaseId = some dbid ∧ p.id ∈ missingIds then { p with isDeleted := true }
            else p) = db.pages.map id := by
          refine List.map_congr_left (fun p hp => ?_)
          by_cases hc : p.databaseId = some dbid ∧ p.id ∈ missingIds
          · have hnin : p.id ∉ ids := by
              have := List.of_mem_filter (hmi ▸ hc.2)
              simpa using this
            simp only [if_pos hc, id]
            exact setDeleted_self (h p hp hc.1 hnin)
          · rw [if_neg hc]
            rfl
        rw [hcg, List.map_id]
      rw [hmap]

/-! ## Helper lemmas about the entity upsert layer -/

/-- The tag ids the upsert's tag loop retains: one entry per occurrence,
falsy (absent or empty) ids skipped. -/
def tagIdsOf (ts : List TagSel) : List String :=
  ts.filterMap (fun t =>
    match t.id with
    | some s => if s = "" then none else some s
    | none => none)

lemma upsertTagsLoop_pages (st : DbState) (pt : List String) (ts : List TagSel) :
    (upsertTagsLoop st pt ts).1.pages = st.pages := by
  induction ts generalizing st pt with
  | nil => rfl
  | cons t rest ih =>
    cases ht : t.id with
    | none => simp [upsertTagsLoop, ht, ih]
    | some tid =>
      by_cases h0 : tid = ""
      · simp [upsertTagsLoop, ht, h0, ih]
      · by_cases hex : (getTagRow st tid).isSome <;>
          simp [upsertTagsLoop, ht, h0, hex, ih]

lemma upsertTagsLoop_statuses (st : DbState) (pt : List String) (ts : List TagSel) :
    (upsertTagsLoop st pt ts).1.statuses = st.statuses := by
  induction ts generalizing st pt with
  | nil => rfl
  | cons t rest ih =>
    cases ht : t.id with
    | none => simp [upsertTagsLoop, ht, ih]
    | some tid =>
      by_cases h0 : tid = ""
      · simp [upsertTagsLoop, ht, h0, ih]
      · by_cases hex : (getTagRow st tid).isSome <;>
          simp [upsertTagsLoop, ht, h0, hex, ih]

lemma upsertTagsLoop_snd (st : DbState) (pt : List String) (ts : List TagSel) :
    (upsertTagsLoop st pt ts).2 = pt ++ tagIdsOf ts := by
  induction ts generalizing st pt with
  | nil => simp [upsertTagsLoop, tagIdsOf]
  | cons t rest ih =>
    cases ht : t.id with
    | none => simp [upsertTagsLoop, ht, ih, tagIdsOf]
    | some tid =>
      by_cases h0 : tid = ""
      · simp [upsertTagsLoop, ht, h0, ih, tagIdsOf]
      · by_cases hex : (getTagRow st tid).isSome <;>
          simp [upsertTagsLoop, ht, h0, hex, ih, tagIdsOf]

lemma getPage_congr_pages {st st' : DbState} (h : st'.pages = st.pages) (pid : String) :
    getPage st' pid = getPage st pid := by
  unfold getPage
  rw [h]

lemma upsert_status_pages (st : DbState) (sp : Option StatusSel) :
    (_upsert_status_if_needed st sp).1.pages = st.pages := by
  unfold _upsert_status_if_needed
  cases sp with
  | none => rfl
  | some s =>
    cases hsid : s.id with
    | none => simp [hsid]
    | some sid =>
      by_cases h0 : sid = ""
      · simp [hsid, h0]
      · by_cases hex : (getStatusRow st sid).isSome <;> simp [hsid, h0, hex]

/-- Inversion of a successful `_upsert_page_and_relations` call: the date
parses succeeded and the resulting store is the tag-loop store with a rebuilt
page written through its primary key; the rebuilt page carries the cleared
soft-deleted flag, the incoming last-edited instant, the replaced tag list
and the resolved cover reference. -/
lemma upsert_ok_inv {st : DbState} {pid : String} {dbid : Option String}
    {parsed : Parsed} {cover : Option String} {st' : DbState} {isNew : Bool}
    (h : _upsert_page_and_relations st pid dbid parsed cover = .ok (st', isNew)) :
    ∃ P le,
      _iso_to_dt parsed.lastEditedTime = Except.ok le ∧
      isNew = (getPage st pid).isNone ∧
      st' = putPage (upsertTagsLoop st [] parsed.tagsProp).1 P ∧
      P.id = pid ∧ P.isDeleted = false ∧ P.lastEditedTime = le ∧
      P.tags = tagIdsOf parsed.tagsProp ∧
      P.coverUrl = pyOr cover parsed.coverUrl := by
  unfold _upsert_page_and_relations at h
  cases hct : _iso_to_dt parsed.createdTime with
  | error e => rw [hct] at h; exact absurd h (by simp)
  | ok ct =>
  rw [hct] at h
  cases hle : _iso_to_dt parsed.lastEditedTime with
  | error e => rw [hle] at h; exact absurd h (by simp)
  | ok le =>
  rw [hle] at h
  cases hce : (match parsed.coverExpiryTime with
    | some s => (fromisoformat s).map some
    | none => (.ok none : Except SyncErr (Option Nat))) with
  | error e => rw [hce] at h; exact absurd h (by simp)
  | ok ce =>
  rw [hce] at h
  cases hwd : (match parsed.writtenDate with
    | some s => (fromisoformat s).map some
    | none => (.ok none : Except SyncErr (Option Nat))) with
  | error e => rw [hwd] at h; exact absurd h (by simp)
  | ok wd =>
  rw [hwd] at h
  cases hgp : getPage st pid with
  | none =>
    rw [hgp] at h
    simp only [Except.ok.injEq, Prod.mk.injEq] at h
    exact ⟨_, le, rfl, by simp [hgp, ← h.2], h.1.symm, rfl, rfl, rfl,
      by simp [upsertTagsLoop_snd], rfl⟩
  | some p =>
    rw [hgp] at h
    simp only [Except.ok.injEq, Prod.mk.injEq] at h
    exact ⟨_, le, rfl, by simp [hgp, ← h.2], h.1.symm,
      by simpa using (mem_of_getPage_eq_some hgp).2, rfl, rfl,
      by simp [upsertTagsLoop_snd], rfl⟩

lemma upsert_getPage_self {st : DbState} {pid : String} {dbid : Option String}
    {parsed : Parsed} {cover : Option String} {st' : DbState} {isNew : Bool}
    (h : _upsert_page_and_relations st pid dbid parsed cover = .ok (st', isNew)) :
    ∃ P le, getPage st' pid = some P ∧
      _iso_to_dt parsed.lastEditedTime = Except.ok le ∧
      P.id = pid ∧ P.isDeleted = false ∧ P.lastEditedTime = le ∧
      P.tags = tagIdsOf parsed.tagsProp ∧ P.coverUrl = pyOr cover parsed.coverUrl := by
  obtain ⟨P, le, hle, -, hst, hPid, hPdel, hPle, hPtags, hPcov⟩ := upsert_ok_inv h
  have hself := getPage_putPage_self (upsertTagsLoop st [] parsed.tagsProp).1 P
  rw [hPid] at hself
  exact ⟨P, le, by rw [hst]; exact hself, hle, hPid, hPdel, hPle, hPtags, hPcov⟩

lemma upsert_getPage_other {st : DbState} {pid : String} {dbid : Option String}
    {parsed : Parsed} {cover : Option String} {st' : DbState} {isNew : Bool}
    (h : _upsert_page_and_relations st pid dbid parsed cover = .ok (st', isNew))
    {q : String} (hq : q ≠ pid) : getPage st' q = getPage st q := by
  obtain ⟨P, le, -, -, hst, hPid, -, -, -, -⟩ := upsert_ok_inv h
  rw [hst, getPage_putPage_other _ _ _ (by rw [hPid]; exact hq)]
  exact getPage_congr_pages (upsertTagsLoop_pages st [] parsed.tagsProp) q

lemma upsert_nodup {st : DbState} {pid : String} {dbid : Option String}
    {parsed : Parsed} {cover : Option String} {st' : DbState} {isNew : Bool}
    (h : _upsert_page_and_relations st pid dbid parsed cover = .ok (st', isNew))
    (hnd : (st.pages.map (·.id)).Nodup) : (st'.pages.map (·.id)).Nodup := by
  obtain ⟨P, le, -, -, hst, -, -, -, -, -⟩ := upsert_ok_inv h
  rw [hst]
  exact nodup_setPages _ _ (by rw [upsertTagsLoop_pages]; exact hnd)

/-! ## Helper lemmas about the per-item loop -/

/-- The page ids the loop touches: `item.get("id")` of each item (the loop,
unlike `_compute_incoming_ids`, does not re-check truthiness). -/
def loopIds (items : List Item) : List String :=
  items.filterMap (·.id)

lemma syncLoop_frame {cfg : CoverConfig} {env : SyncEnv} {items : List Item}
    {db db' : DbState} {c u c' u' : Nat} {calls : List String} {pid : String}
    (hnin : pid ∉ loopIds items)
    (hok : (syncLoop cfg env items db c u calls).res = .ok (db', c', u')) :
    getPage db' pid = getPage db pid := by
  induction items generalizing db c u calls with
  | nil =>
    simp only [syncLoop, Except.ok.injEq, Prod.mk.injEq] at hok
    rw [← hok.1]
  | cons item rest ih =>
    have hnin' : pid ∉ loopIds rest := by
      intro hc
      obtain ⟨a, ha, hfa⟩ := List.mem_filterMap.mp hc
      exact hnin (List.mem_filterMap.mpr ⟨a, List.mem_cons_of_mem _ ha, hfa⟩)
    simp only [syncLoop] at hok
    split at hok
    · simp at hok
    · next pageId hid =>
      have hpid : pid ≠ pageId := by
        intro hc
        exact hnin (List.mem_filterMap.mpr ⟨item, List.mem_cons_self item rest, by rw [hid, hc]⟩)
      split at hok
      · simp at hok
      · next ile hile =>
        split at hok
        · exact ih hnin' hok
        · split at hok
          · simp at hok
          · next db2 isNew hup =>
            have hframe : getPage db2 pid = getPage db pid := by
              rw [upsert_getPage_other hup hpid]
              exact getPage_congr_pages
                (upsert_status_pages db (_parse_properties item).statusProp) pid
            split at hok
            · rw [ih hnin' hok]; exact hframe
            · rw [ih hnin' hok]; exact hframe

lemma syncLoop_nodup {cfg : CoverConfig} {env : SyncEnv} {items : List Item}
    {db db' : DbState} {c u c' u' : Nat} {calls : List String}
    (hok : (syncLoop cfg env items db c u calls).res = .ok (db', c', u'))
    (hnd : (db.pages.map (·.id)).Nodup) : (db'.pages.map (·.id)).Nodup := by
  induction items generalizing db c u calls with
  | nil =>
    simp only [syncLoop, Except.ok.injEq, Prod.mk.injEq] at hok
    rw [← hok.1]; exact hnd
  | cons item rest ih =>
    simp only [syncLoop] at hok
    split at hok
    · simp at hok
    · next pageId hid =>
      split at hok
      · simp at hok
      · split at hok
        · exact ih hok hnd
        · split at hok
          · simp at hok
          · next db2 isNew hup =>
            have hnd2 : (db2.pages.map (·.id)).Nodup := by
              refine upsert_nodup hup ?_
              rw [upsert_status_pages]
              exact hnd
            split at hok
            · exact ih hok hnd2
            · exact ih hok hnd2

/-- What one successful pass of the loop does to the row of a given incoming
item (ids assumed unique across the snapshot): either the unchanged-timestamp
test succeeded against the pre-loop row and the row is untouched, or the item
was re-processed and the row ends present with the soft-deleted flag cleared
and the incoming last-edited instant stored. -/
lemma syncLoop_final_char {cfg : CoverConfig} {env : SyncEnv} {items : List Item}
    {db db' : DbState} {c u c' u' : Nat} {calls : List String}
    (hnodup : (loopIds items).Nodup)
    (hok : (syncLoop cfg env items db c u calls).res = .ok (db', c', u'))
    {item : Item} {pid : String} (hmem : item ∈ items) (hid : item.id = some pid) :
    ∃ le, _iso_to_dt item.lastEditedTime = Except.ok le ∧
      ((skipCheck (getPage db pid) le = true ∧ getPage db' pid = getPage db pid) ∨
       (skipCheck (getPage db pid) le = false ∧
         ∃ P, getPage db' pid = some P ∧ P.isDeleted = false ∧ P.lastEditedTime = le)) := by
  induction items generalizing db c u calls with
  | nil => cases hmem
  | cons hd rest ih =>
    simp only [syncLoop] at hok
    split at hok
    · simp at hok
    · next hdId hhdid =>
      have hids : loopIds (hd :: rest) = hdId :: loopIds rest := by
        simp [loopIds, List.filterMap_cons, hhdid]
      have hhdnin : hdId ∉ loopIds rest := by
        rw [hids] at hnodup
        exact (List.nodup_cons.mp hnodup).1
      have hnodup' : (loopIds rest).Nodup := by
        rw [hids] at hnodup
        exact (List.nodup_cons.mp hnodup).2
      rcases List.mem_cons.mp hmem with hitem | hitem
      · -- the item at the head of the loop
        subst hitem
        have hpid : hdId = pid := by rw [hhdid] at hid; exact (Option.some.injEq .. ▸ hid)
        subst hpid
        split at hok
        · simp at hok
        · next ile hile =>
          refine ⟨ile, hile, ?_⟩
          split at hok
          · next hskip =>
            left
            exact ⟨hskip, syncLoop_frame hhdnin hok⟩
          · next hskip =>
            right
            refine ⟨Bool.not_eq_true _ ▸ hskip, ?_⟩
            split at hok
            · simp at hok
            · next db2 isNew hup =>
              obtain ⟨P, le', hgp2, hle', -, hPdel, hPle, -, -⟩ := upsert_getPage_self hup
              have hle2 : _iso_to_dt item.lastEditedTime = Except.ok le' := by
                simpa [_parse_properties] using hle'
              have hle'' : le' = ile := by
                rw [hile] at hle2
                exact (Except.ok.injEq .. ▸ hle2).symm
              have hfin : getPage db' hdId = some P := by
                have hframe : getPage db' hdId = getPage db2 hdId := by
                  split at hok
                  · exact syncLoop_frame hhdnin hok
                  · exact syncLoop_frame hhdnin hok
                rw [hframe, hgp2]
              exact ⟨P, hfin, hPdel, hle'' ▸ hPle⟩
      · -- the item occurs later in the loop
        have hpidrest : pid ∈ loopIds rest := List.mem_filterMap.mpr ⟨item, hitem, hid⟩
        have hne : hdId ≠ pid := fun hc => hhdnin (hc ▸ hpidrest)
        split at hok
        · simp at hok
        · split at hok
          · exact ih hnodup' hok hitem
          · split at hok
            · simp at hok
            · next db2 isNew hup =>
              have hframe : getPage db2 pid = getPage db pid := by
                rw [upsert_getPage_other hup (fun hc => hne hc.symm)]
                exact getPage_congr_pages
                  (upsert_status_pages db (_parse_properties hd).statusProp) pid
              have hres := by
                split at hok
                · exact ih hnodup' hok hitem
                · exact ih hnodup' hok hitem
              rw [hframe] at hres
              exact hres

/-- If every incoming item passes the unchanged-timestamp test against the
current store, the loop is a pure no-op: same store, same counters, no cover
pipeline invocation. -/
lemma syncLoop_skip_all {cfg : CoverConfig} {env : SyncEnv} {items : List Item}
    {db : DbState} {c u : Nat} {calls : List String}
    (h : ∀ it ∈ items, ∃ pid t, it.id = some pid ∧
        _iso_to_dt it.lastEditedTime = Except.ok (some t) ∧
        skipCheck (getPage db pid) (some t) = true) :
    syncLoop cfg env items db c u calls = ⟨calls, .ok (db, c, u)⟩ := by
  induction items generalizing c u calls with
  | nil => rfl
  | cons item rest ih =>
    obtain ⟨pid, t, hid, hpar, hskip⟩ := h item (List.mem_cons_self item rest)
    simp only [syncLoop, hid, hpar, if_pos hskip]
    exact ih (fun it hit => h it (List.mem_cons_of_mem _ hit))

/-! ## Helper lemmas about one whole pass -/

lemma sync_pages_eq_runPass {cfg : SyncConfig} {env : SyncEnv}
    {attempts : List HttpResponse} {db0 : DbState} {dbid : String} {results : List Item}
    (hdbid : cfg.postDatabaseId = some dbid) (hne : dbid ≠ "")
    (hfetch : fetch_notion_data_for_db dbid attempts = .ok results) :
    sync_notion_pages cfg env attempts db0 = runPass dbid cfg env results db0 := by
  unfold sync_notion_pages
  have htr : truthyStr cfg.postDatabaseId = true := by
    rw [hdbid]; simpa [truthyStr] using hne
  have hget : cfg.postDatabaseId.getD "" = dbid := by rw [hdbid]; rfl
  rw [htr, hget]
  simp [hfetch]

lemma sync_projects_eq_runPass {cfg : SyncConfig} {env : SyncEnv}
    {attempts : List HttpResponse} {db0 : DbState} {dbid : String} {results : List Item}
    (hdbid : cfg.projectDatabaseId = some dbid) (hne : dbid ≠ "")
    (hfetch : fetch_notion_data_for_db dbid attempts = .ok results) :
    sync_notion_projects cfg env attempts db0 = runPass dbid cfg env results db0 := by
  unfold sync_notion_projects
  have htr : truthyStr cfg.projectDatabaseId = true := by
    rw [hdbid]; simpa [truthyStr] using hne
  have hget : cfg.projectDatabaseId.getD "" = dbid := by rw [hdbid]; rfl
  rw [htr, hget]
  simp [hfetch]

lemma runPass_error {dbid : String} {cfg : SyncConfig} {env : SyncEnv}
    {results : List Item} {db0 : DbState} {e : SyncErr}
    (hloop : (syncLoop cfg.cover env results
        (_mark_missing_pages_deleted db0 (_compute_incoming_ids results) dbid) 0 0 []).res
      = .error e) :
    (runPass dbid cfg env results db0).db = db0 ∧
    (runPass dbid cfg env results db0).result = .error e ∧
    (runPass dbid cfg env results db0).revalidated = none := by
  unfold runPass
  cases hl : syncLoop cfg.cover env results
      (_mark_missing_pages_deleted db0 (_compute_incoming_ids results) dbid) 0 0 [] with
  | mk calls res =>
    rw [hl] at hloop
    simp only at hloop
    cases res with
    | error e' =>
      obtain rfl : e' = e := by simpa using hloop
      exact ⟨rfl, rfl, rfl⟩
    | ok v => simp at hloop

lemma runPass_ok_inv {dbid : String} {cfg : SyncConfig} {env : SyncEnv}
    {results : List Item} {db0 : DbState} {r : SyncResult}
    (h : (runPass dbid cfg env results db0).result = .ok r) :
    ∃ calls db2 c u,
      syncLoop cfg.cover env results
        (_mark_missing_pages_deleted db0 (_compute_incoming_ids results) dbid) 0 0 []
        = ⟨calls, .ok (db2, c, u)⟩ ∧
      pageTagsPkViolated db2 = false ∧
      r = ⟨c, u, results.length⟩ ∧
      (runPass dbid cfg env results db0).db = db2 ∧
      (runPass dbid cfg env results db0).coverCalls = calls ∧
      (runPass dbid cfg env results db0).revalidated =
        (if c + u > 0 then some (_post_revalidate cfg.rev "posts") else none) := by
  unfold runPass at h ⊢
  cases hl : syncLoop cfg.cover env results
      (_mark_missing_pages_deleted db0 (_compute_incoming_ids results) dbid) 0 0 [] with
  | mk calls res =>
    rw [hl] at h
    cases res with
    | error e => simp at h
    | ok v =>
      obtain ⟨db2, c, u⟩ := v
      by_cases hpk : pageTagsPkViolated db2 = true
      · simp [hpk] at h
      · have hpk' : pageTagsPkViolated db2 = false := Bool.not_eq_true _ ▸ hpk
        simp only [hpk'] at h ⊢
        simp only [Bool.false_eq_true, if_false] at h ⊢
        refine ⟨calls, db2, c, u, rfl, hpk', ?_, rfl, rfl, rfl⟩
        simpa using h.symm

lemma truthy_some_inv {v : Option String} (h : truthyStr v = true) :
    ∃ s, v = some s ∧ s ≠ "" := by
  cases v with
  | none => simp [truthyStr] at h
  | some s => exact ⟨s, rfl, by simpa [truthyStr] using h⟩

lemma sync_pages_ok_shape {cfg : SyncConfig} {env : SyncEnv}
    {attempts : List HttpResponse} {db0 : DbState} {r : SyncResult}
    (hok : (sync_notion_pages cfg env attempts db0).result = .ok r) :
    ∃ dbid results, cfg.postDatabaseId = some dbid ∧ dbid ≠ "" ∧
      fetch_notion_data_for_db dbid attempts = .ok results ∧
      sync_notion_pages cfg env attempts db0 = runPass dbid cfg env results db0 := by
  by_cases htr : truthyStr cfg.postDatabaseId = true
  · obtain ⟨dbid, hdb, hne⟩ := truthy_some_inv htr
    cases hf : fetch_notion_data_for_db dbid attempts with
    | error e =>
      unfold sync_notion_pages at hok
      rw [htr] at hok
      simp only [not_true, if_false] at hok
      rw [show cfg.postDatabaseId.getD "" = dbid from by rw [hdb]; rfl, hf] at hok
      simp at hok
    | ok results =>
      exact ⟨dbid, results, hdb, hne, hf, sync_pages_eq_runPass hdb hne hf⟩
  · have htr' : truthyStr cfg.postDatabaseId = false := by
      cases h : truthyStr cfg.postDatabaseId
      · rfl
      · exact absurd h htr
    unfold sync_notion_pages at hok
    rw [htr'] at hok
    simp at hok

lemma sync_projects_ok_shape {cfg : SyncConfig} {env : SyncEnv}
    {attempts : List HttpResponse} {db0 : DbState} {r : SyncResult}
    (hok : (sync_notion_projects cfg env attempts db0).result = .ok r) :
    ∃ dbid results, cfg.projectDatabaseId = some dbid ∧ dbid ≠ "" ∧
      fetch_notion_data_for_db dbid attempts = .ok results ∧
      sync_notion_projects cfg env attempts db0 = runPass dbid cfg env results db0 := by
  by_cases htr : truthyStr cfg.projectDatabaseId = true
  · obtain ⟨dbid, hdb, hne⟩ := truthy_some_inv htr
    cases hf : fetch_notion_data_for_db dbid attempts with
    | error e =>
      unfold sync_notion_projects at hok
      rw [htr] at hok
      simp only [not_true, if_false] at hok
      rw [show cfg.projectDatabaseId.getD "" = dbid from by rw [hdb]; rfl, hf] at hok
      simp at hok
    | ok results =>
      exact ⟨dbid, results, hdb, hne, hf, sync_projects_eq_runPass hdb hne hf⟩
  · have htr' : truthyStr cfg.projectDatabaseId = false := by
      cases h : truthyStr cfg.projectDatabaseId
      · rfl
      · exact absurd h htr
    unfold sync_notion_projects at hok
    rw [htr'] at hok
    simp at hok

/-! ## Concrete fixtures used by witnesses and counterexamples -/

/-- An effect environment whose cover downloads all fail (download `None`). -/
def envNone : SyncEnv := ⟨fun _ => {}⟩

def cfgPosts : SyncConfig := { postDatabaseId := some "db" }

def itemPlain : Item :=
  { id := some "a"
    parentDatabaseId := some "db"
    lastEditedTime := some (.good 1) }

def itemBadDate : Item :=
  { id := some "b"
    parentDatabaseId := some "db"
    props := { dateWritten := some { date := some { start := some .bad } } }
    lastEditedTime := some (.good 2) }

def dbOneStale : DbState :=
  { pages := [{ id := "z", databaseId := some "db", lastEditedTime := some 9 }] }

/-! ## Claim C10 -/

/-- Claim C10: for a sync pass whose fetched snapshot contains zero records,
soft-deletion reconciliation is skipped entirely — `_compute_incoming_ids`
of an empty result list is empty and `_mark_missing_pages_deleted` then
returns the store unchanged, flipping no soft-deleted flag (rather than
marking every local page deleted). -/
theorem C10_empty_snapshot_reconciliation_noop :
    _compute_incoming_ids ([] : List Item) = [] ∧
    ∀ (db : DbState) (dbid : String),
      _mark_missing_pages_deleted db (_compute_incoming_ids ([] : List Item)) dbid = db :=
  ⟨rfl, fun _ _ => rfl⟩

/-! ## Claim C2 -/

/-- Claim C2: when any unhandled exception is raised inside the transactional
body of a pass (soft-deletion reconciliation plus the per-page upsert loop),
`session_scope` rolls back every database mutation of the pass and re-raises:
the pass returns the store exactly as it was before the pass, the exception
propagates as the pass result, and no revalidation is attempted. -/
theorem C2_failed_pass_rolls_back
    (cfg : SyncConfig) (env : SyncEnv) (attempts : List HttpResponse) (db0 : DbState)
    (dbid : String) (results : List Item) (e : SyncErr)
    (hdbid : cfg.postDatabaseId = some dbid) (hne : dbid ≠ "")
    (hfetch : fetch_notion_data_for_db dbid attempts = .ok results)
    (hloop : (syncLoop cfg.cover env results
        (_mark_missing_pages_deleted db0 (_compute_incoming_ids results) dbid) 0 0 []).res
      = .error e) :
    (sync_notion_pages cfg env attempts db0).db = db0 ∧
    (sync_notion_pages cfg env attempts db0).result = .error e := by
  rw [sync_pages_eq_runPass hdbid hne hfetch]
  obtain ⟨h1, h2, -⟩ := runPass_error hloop
  exact ⟨h1, h2⟩

/-- Witness for C2: a snapshot of two pages whose second page carries a
malformed date; the loop raises, and the pass leaves the one pre-existing
stale row exactly as it was while propagating the parse error. -/
theorem C2_failed_pass_rolls_back_witness :
    ((syncLoop cfgPosts.cover envNone [itemPlain, itemBadDate]
        (_mark_missing_pages_deleted dbOneStale
          (_compute_incoming_ids [itemPlain, itemBadDate]) "db") 0 0 []).res
      = .error .parseError) ∧
    (sync_notion_pages cfgPosts envNone
        [{ status := 200, results := [itemPlain, itemBadDate] }] dbOneStale).db = dbOneStale ∧
    (sync_notion_pages cfgPosts envNone
        [{ status := 200, results := [itemPlain, itemBadDate] }] dbOneStale).result
      = .error .parseError :=
  ⟨by decide,
   C2_failed_pass_rolls_back cfgPosts envNone
     [{ status := 200, results := [itemPlain, itemBadDate] }] dbOneStale
     "db" [itemPlain, itemBadDate] .parseError rfl (by decide) (by decide) (by decide)⟩

/-! ## Claim C6 -/

/-- Claim C6 (amended): the collection fetcher issues exactly ONE request —
plain `requests.post`, not the retry-mounted session — raising on any
status >= 400 without consuming further attempts, and a failed fetch aborts
the pass before the transaction opens, leaving the store untouched.  (The
3-attempt exponential-backoff retry policy on statuses 429/500/502/503/504
exists only on the session `_get_http_session` builds, which the cover
downloads use.) -/
theorem C6_fetch_is_single_attempt :
    (∀ (dbid : String) (r : HttpResponse) (rest : List HttpResponse),
      fetch_notion_data_for_db dbid (r :: rest) =
        (if r.status < 400 then .ok r.results else .error (.httpError r.status))) ∧
    (∀ (cfg : SyncConfig) (env : SyncEnv) (attempts : List HttpResponse) (db0 : DbState)
        (dbid : String) (e : SyncErr),
      cfg.postDatabaseId = some dbid → dbid ≠ "" →
      fetch_notion_data_for_db dbid attempts = .error e →
      sync_notion_pages cfg env attempts db0 = ⟨db0, .error e, [], none⟩) := by
  constructor
  · intro dbid r rest
    by_cases h : r.status < 400 <;>
      simp [fetch_notion_data_for_db, raise_for_status, h, Except.bind, bind, pure, Except.pure]
  · intro cfg env attempts db0 dbid e hdbid hne hfetch
    unfold sync_notion_pages
    have htr : truthyStr cfg.postDatabaseId = true := by
      rw [hdbid]; simpa [truthyStr] using hne
    have hget : cfg.postDatabaseId.getD "" = dbid := by rw [hdbid]; rfl
    rw [htr, hget]
    simp [hfetch]

/-- Witness for C6: a lone 503 response makes the fetcher raise immediately,
and the pass returns the untouched store with the propagated error. -/
theorem C6_fetch_is_single_attempt_witness :
    (fetch_notion_data_for_db "db" [{ status := 503 }] =
      (if (503 : Nat) < 400 then .ok ([] : List Item) else .error (.httpError 503))) ∧
    sync_notion_pages cfgPosts envNone [{ status := 503 }] dbOneStale
      = ⟨dbOneStale, .error (.httpError 503), [], none⟩ :=
  ⟨C6_fetch_is_single_attempt.1 "db" { status := 503 } [],
   C6_fetch_is_single_attempt.2 cfgPosts envNone [{ status := 503 }] dbOneStale "db"
     (.httpError 503) rfl (by decide) (by decide)⟩

/-- Counterexample for C6 as stated: on a 500 response followed by a healthy
200, the fetcher fails at once — it performs no retry — while a request
through the retry policy the spec describes (and which `_get_http_session`
configures for cover downloads) would have succeeded on the second attempt;
the pass aborts with the 500 propagated. -/
theorem C6_counterexample :
    fetch_notion_data_for_db "db" [{ status := 500 }, { status := 200 }]
      = .error (.httpError 500) ∧
    sessionRequestWithRetry retryTotal [{ status := 500 }, { status := 200 }]
      = .ok { status := 200 } ∧
    (sync_notion_pages cfgPosts envNone [{ status := 500 }, { status := 200 }] dbOneStale).result
      = .error (.httpError 500) ∧
    (sync_notion_pages cfgPosts envNone [{ status := 500 }, { status := 200 }] dbOneStale).db
      = dbOneStale := by
  refine ⟨by decide, by decide, by decide, by decide⟩

/-! ## Claim C7 -/

/-- The written-date / cover-expiry sub-expressions of the upsert are the
same parse `_iso_to_dt` performs. -/
lemma date_match_eq_iso (v : Option IsoStr) :
    (match v with
     | some s => (fromisoformat s).map some
     | none => (.ok none : Except SyncErr (Option Nat))) = _iso_to_dt v := by
  cases v <;> rfl

lemma iso_to_dt_ok_of_ne_bad {v : Option IsoStr} (h : v ≠ some .bad) :
    ∃ x, _iso_to_dt v = Except.ok x := by
  cases v with
  | none => exact ⟨none, rfl⟩
  | some s =>
    cases s with
    | good t => exact ⟨some t, rfl⟩
    | bad => exact absurd rfl h

/-- Claim C7 (amended): a malformed written-date string does NOT fail soft —
`datetime.fromisoformat` raises and `_upsert_page_and_relations` aborts the
whole record with the parse error (which, uncaught, aborts and rolls back
the enclosing pass). -/
theorem C7_malformed_date_aborts_record
    (st : DbState) (pid : String) (dbid : Option String) (parsed : Parsed)
    (cover : Option String)
    (hbad : parsed.writtenDate = some .bad)
    (hct : parsed.createdTime ≠ some IsoStr.bad)
    (hle : parsed.lastEditedTime ≠ some IsoStr.bad)
    (hce : parsed.coverExpiryTime ≠ some IsoStr.bad) :
    _upsert_page_and_relations st pid dbid parsed cover = .error .parseError := by
  obtain ⟨ct, h1⟩ := iso_to_dt_ok_of_ne_bad hct
  obtain ⟨le, h2⟩ := iso_to_dt_ok_of_ne_bad hle
  obtain ⟨ce, h3⟩ := iso_to_dt_ok_of_ne_bad hce
  unfold _upsert_page_and_relations
  rw [h1, h2, date_match_eq_iso parsed.coverExpiryTime, h3,
    date_match_eq_iso parsed.writtenDate, hbad]
  rfl

/-- Witness for C7: the fixture record with the malformed `작성일` start
date makes the upsert fail with the parse error. -/
theorem C7_malformed_date_aborts_record_witness :
    ((_parse_properties itemBadDate).writtenDate = some .bad) ∧
    _upsert_page_and_relations dbOneStale "b" (some "db") (_parse_properties itemBadDate) none
      = .error .parseError :=
  ⟨by decide,
   C7_malformed_date_aborts_record dbOneStale "b" (some "db") (_parse_properties itemBadDate)
     none (by decide) (by decide) (by decide) (by decide)⟩

/-- Counterexample for C7 as stated: a snapshot whose only record carries a
malformed date does not complete with the field treated absent — the whole
pass aborts with the parse error and even the reconciliation's soft-delete
of the stale row is rolled back. -/
theorem C7_counterexample :
    (sync_notion_pages cfgPosts envNone
        [{ status := 200, results := [itemBadDate] }] dbOneStale).result
      = .error .parseError ∧
    (sync_notion_pages cfgPosts envNone
        [{ status := 200, results := [itemBadDate] }] dbOneStale).db = dbOneStale := by
  refine ⟨by decide, by decide⟩

/-! ## Claim C8 -/

/-- Fixture: cover effects where the object-storage upload raises and the
local fallback write also fails. -/
def coverOutUploadErr : CoverOutcome :=
  { download := some { ctype := "image/png" }
    processed := some {}
    s3Upload := .clientError
    localWriteOk := false }

def cfgS3 : CoverConfig := { s3Bucket := some "b" }

/-- Claim C8 (amended): when the object-storage upload raises and the local
fallback write succeeds, the pipeline returns the local static path
`/static/covers/` ++ pageId ++ ext; and no exception ever escapes the
pipeline — whenever its body raises (including when the local fallback
itself fails), the outer handler resolves the cover to absent. -/
theorem C8_storage_fallback :
    (∀ (cfg : CoverConfig) (out : CoverOutcome) (url : Option String) (pid : String)
        (dl : DownloadRes) (proc : ProcessedRes),
      truthyStr url = true → cfg.coverDownloadEnabled = true →
      out.download = some dl →
      (contentTypeIsImage dl.ctype = true ∨ out.pillowOpens = true) →
      out.processed = some proc →
      truthyStr cfg.s3Bucket = true →
      out.s3Upload ≠ .ok → out.localWriteOk = true →
      _download_cover_if_available cfg out url pid = some ("/static/covers/" ++ pid ++ proc.ext)) ∧
    (∀ (cfg : CoverConfig) (out : CoverOutcome) (url : Option String) (pid : String)
        (e : CoverErr),
      coverBody cfg out url pid = .error e →
      _download_cover_if_available cfg out url pid = none) := by
  constructor
  · intro cfg out url pid dl proc hurl hen hdl himg hproc hbucket hup hlw
    unfold _download_cover_if_available coverBody
    rw [hurl, hen, hdl, hproc, hbucket]
    simp only [Bool.not_eq_true, decide_eq_true_eq, if_true, Bool.true_eq_false,
      if_false, not_true]
    have himg' : ¬ ¬ (contentTypeIsImage dl.ctype = true ∨ out.pillowOpens = true) :=
      not_not_intro himg
    rw [if_neg (by simpa using himg')]
    cases hu : out.s3Upload with
    | ok => exact absurd hu hup
    | clientError => simp [hlw, String.append_assoc]
    | otherError => simp [hlw, String.append_assoc]
  · intro cfg out url pid e hbody
    unfold _download_cover_if_available
    rw [hbody]

/-- Witness for C8: with the S3 upload raising a client error and the local
write succeeding, the returned reference is the local static path; and for
the double-failure fixture the body's error is swallowed into `none`. -/
theorem C8_storage_fallback_witness :
    _download_cover_if_available cfgS3 { coverOutUploadErr with localWriteOk := true }
      (some "https://remote/x") "pg" = some ("/static/covers/" ++ "pg" ++ (".jpg" : String)) ∧
    _download_cover_if_available cfgS3 coverOutUploadErr (some "https://remote/x") "pg" = none :=
  ⟨C8_storage_fallback.1 cfgS3 { coverOutUploadErr with localWriteOk := true }
      (some "https://remote/x") "pg" { ctype := "image/png" } {} (by decide) (by decide)
      (by decide) (.inl (by decide)) (by decide) (by decide) (by decide) (by decide),
   C8_storage_fallback.2 cfgS3 coverOutUploadErr (some "https://remote/x") "pg"
      .fallbackFailed (by decide)⟩

/-- Counterexample for C8 as stated: when the upload raises AND the local
fallback write also raises, the processed asset is NOT served from the local
static area — the pipeline swallows the failure and returns no cover at all,
not a local static path. -/
theorem C8_counterexample :
    coverBody cfgS3 coverOutUploadErr (some "https://remote/x") "pg"
      = .error .fallbackFailed ∧
    _download_cover_if_available cfgS3 coverOutUploadErr (some "https://remote/x") "pg"
      = none := by
  refine ⟨by decide, by decide⟩

/-! ## Claim C9 -/

/-- Fixtures for the revalidation claims. -/
def cfgProjectsRev : SyncConfig :=
  { projectDatabaseId := some "pdb", rev := { webhookSecret := some "sec" } }

def itemProject : Item :=
  { id := some "a"
    parentDatabaseId := some "pdb"
    lastEditedTime := some (.good 1) }

/-- Claim C9 (amended): on a successful pass the notifier is invoked exactly
when created + updated > 0, for BOTH collections with the fixed tag
`"posts"` (the projects pass does not post a projects-specific tag); it
no-ops when the url or the shared secret is blank after stripping; and the
outcome of the webhook POST can never change the pass's persisted store or
result. -/
theorem C9_revalidation_behaviour :
    (∀ (cfg : SyncConfig) (env : SyncEnv) (attempts : List HttpResponse) (db0 : DbState)
        (r : SyncResult),
      (sync_notion_pages cfg env attempts db0).result = .ok r →
      (sync_notion_pages cfg env attempts db0).revalidated =
        (if r.created + r.updated > 0 then some (_post_revalidate cfg.rev "posts") else none)) ∧
    (∀ (cfg : SyncConfig) (env : SyncEnv) (attempts : List HttpResponse) (db0 : DbState)
        (r : SyncResult),
      (sync_notion_projects cfg env attempts db0).result = .ok r →
      (sync_notion_projects cfg env attempts db0).revalidated =
        (if r.created + r.updated > 0 then some (_post_revalidate cfg.rev "posts") else none)) ∧
    (∀ (rcfg : RevConfig) (tag : String),
      (pyStrip rcfg.revalidateUrl = "" ∨ (pyStrip (rcfg.webhookSecret.getD "") = "")) →
      _post_revalidate rcfg tag = .skippedMissing) ∧
    (∀ (dbid : String) (cfg : SyncConfig) (env : SyncEnv) (results : List Item)
        (db0 : DbState) (o : RevOutcome),
      (runPass dbid { cfg with rev := { cfg.rev with postOutcome := o } } env results db0).db
        = (runPass dbid cfg env results db0).db ∧
      (runPass dbid { cfg with rev := { cfg.rev with postOutcome := o } } env results db0).result
        = (runPass dbid cfg env results db0).result) := by
  refine ⟨?_, ?_, ?_, ?_⟩
  · intro cfg env attempts db0 r hok
    obtain ⟨dbid, results, -, -, -, heq⟩ := sync_pages_ok_shape hok
    rw [heq] at hok ⊢
    obtain ⟨calls, db2, c, u, -, -, hr, -, -, hrev⟩ := runPass_ok_inv hok
    rw [hrev, hr]
  · intro cfg env attempts db0 r hok
    obtain ⟨dbid, results, -, -, -, heq⟩ := sync_projects_ok_shape hok
    rw [heq] at hok ⊢
    obtain ⟨calls, db2, c, u, -, -, hr, -, -, hrev⟩ := runPass_ok_inv hok
    rw [hrev, hr]
  · intro rcfg tag h
    unfold _post_revalidate
    rcases h with h | h <;> simp [h]
  · intro dbid cfg env results db0 o
    unfold runPass
    have hcov : ({ cfg with rev := { cfg.rev with postOutcome := o } } : SyncConfig).cover
        = cfg.cover := rfl
    rw [hcov]
    cases hl : syncLoop cfg.cover env results
        (_mark_missing_pages_deleted db0 (_compute_incoming_ids results) dbid) 0 0 [] with
    | mk calls res =>
      cases res with
      | error e => exact ⟨rfl, rfl⟩
      | ok v =>
        obtain ⟨db2, c, u⟩ := v
        by_cases hpk : pageTagsPkViolated db2 = true
        · simp [hpk]
        · have hpk' : pageTagsPkViolated db2 = false := Bool.not_eq_true _ ▸ hpk
          simp [hpk']

/-- Witness for C9: a successful projects pass that created one page carries
the posted notification; the posts pass with a blank secret skips it; and a
network-failure outcome leaves the result of the same pass untouched. -/
theorem C9_revalidation_behaviour_witness :
    ((sync_notion_projects cfgProjectsRev envNone
        [{ status := 200, results := [itemProject] }] {}).result = .ok ⟨1, 0, 1⟩) ∧
    (sync_notion_projects cfgProjectsRev envNone
        [{ status := 200, results := [itemProject] }] {}).revalidated =
      (if (1 : Nat) + 0 > 0 then some (_post_revalidate cfgProjectsRev.rev "posts") else none) ∧
    _post_revalidate ({} : RevConfig) "posts" = .skippedMissing ∧
    (runPass "pdb" { cfgProjectsRev with
        rev := { cfgProjectsRev.rev with postOutcome := .netError } } envNone [itemProject] {}).result
      = (runPass "pdb" cfgProjectsRev envNone [itemProject] {}).result :=
  ⟨by decide,
   C9_revalidation_behaviour.2.1 cfgProjectsRev envNone
     [{ status := 200, results := [itemProject] }] {} ⟨1, 0, 1⟩ (by decide),
   C9_revalidation_behaviour.2.2.1 {} "posts" (.inr (by decide)),
   (C9_revalidation_behaviour.2.2.2 "pdb" cfgProjectsRev envNone [itemProject] {} .netError).2⟩

/-- Counterexample for C9 as stated: the projects pass does not POST the
owning collection's tag — it posts the literal `"posts"`, the posts
collection's tag (src/app/notion.py line 670). -/
theorem C9_counterexample :
    (sync_notion_projects cfgProjectsRev envNone
        [{ status := 200, results := [itemProject] }] {}).revalidated
      = some (.posted "https://jblog.my/api/revalidate" "posts" "sec" (.success 200)) ∧
    (sync_notion_projects cfgProjectsRev envNone
        [{ status := 200, results := [itemProject] }] {}).result = .ok ⟨1, 0, 1⟩ ∧
    ("posts" : String) ≠ "projects" := by
  refine ⟨by decide, by decide, by decide⟩

/-! ## Claim C5 -/

/-- A stable, re-fetchable cover reference in the sense of the spec: a local
static path, a CDN-prefixed URL, or the S3 public URL of the configured
bucket. -/
def stableCoverRef (cfg : CoverConfig) (r : String) : Prop :=
  (∃ fn, r = "/static/covers/" ++ fn) ∨
  (cfg.s3PublicBaseUrl ≠ "" ∧ ∃ key, r = cfg.s3PublicBaseUrl ++ "/" ++ key) ∨
  (truthyStr cfg.s3Bucket = true ∧ ∃ key,
    r = "https://" ++ cfg.s3Bucket.getD "" ++ ".s3." ++ cfg.s3Region
      ++ ".amazonaws.com/" ++ key)

/-- Fixture: a record whose cover is a time-limited remote signed URL. -/
def signedUrl : String := "https://files.notion.example/cover.png?X-Amz-Expires=3600"

def itemSignedCover : Item :=
  { id := some "a"
    parentDatabaseId := some "db"
    lastEditedTime := some (.good 1)
    cover := some { type := "file", file := some { url := some signedUrl } } }

/-- Claim C5 (amended): the persisted cover field is
`local_cover_path or parsed["cover_url"]` — when the cover pipeline returns
a reference it is always a stable one (static path, CDN URL or S3 public
URL), but when the pipeline yields nothing and the record carries a cover,
the ORIGINAL remote (time-limited) URL is persisted as the fallback. -/
theorem C5_cover_url_policy :
    (∀ (st : DbState) (pid : String) (dbid : Option String) (parsed : Parsed)
        (cover : Option String) (st' : DbState) (isNew : Bool),
      _upsert_page_and_relations st pid dbid parsed cover = .ok (st', isNew) →
      ∃ P, getPage st' pid = some P ∧ P.coverUrl = pyOr cover parsed.coverUrl) ∧
    (∀ (cfg : CoverConfig) (out : CoverOutcome) (url : Option String) (pid : String)
        (r : String),
      _download_cover_if_available cfg out url pid = some r → stableCoverRef cfg r) := by
  constructor
  · intro st pid dbid parsed cover st' isNew h
    obtain ⟨P, le, hgp, -, -, -, -, -, hcov⟩ := upsert_getPage_self h
    exact ⟨P, hgp, hcov⟩
  · intro cfg out url pid r h
    unfold _download_cover_if_available at h
    cases hb : coverBody cfg out url pid with
    | error e => rw [hb] at h; simp at h
    | ok r' =>
      rw [hb] at h
      simp only at h
      subst h
      unfold coverBody at hb
      repeat' split at hb
      all_goals
        first
        | · simp only [Except.ok.injEq, Option.some.injEq] at hb
            subst hb
            first
            | exact Or.inl ⟨_, rfl⟩
            | exact Or.inr (Or.inl ⟨by assumption, _, rfl⟩)
            | exact Or.inr (Or.inr ⟨by assumption, _, rfl⟩)
        | simp at hb

def c5parsed : Parsed := _parse_properties itemSignedCover

/-- The store produced by one successful upsert of the signed-cover record
with a resolved local cover path. -/
def c5st : DbState :=
  match _upsert_page_and_relations {} "a" (some "db") c5parsed (some "/static/covers/a.jpg") with
  | .ok (st, _) => st
  | .error _ => {}

/-- Cover effects for a fully successful S3 upload. -/
def coverOutOk : CoverOutcome :=
  { download := some { ctype := "image/png" }
    processed := some {} }

/-- Witness for C5: a record upserted with a resolved local path stores that
path, and a successful S3 pipeline run returns a stable reference. -/
theorem C5_cover_url_policy_witness :
    (∃ P, getPage c5st "a" = some P ∧
      P.coverUrl = pyOr (some "/static/covers/a.jpg") c5parsed.coverUrl) ∧
    stableCoverRef cfgS3 "https://b.s3.ap-northeast-2.amazonaws.com/pg.jpg" :=
  ⟨C5_cover_url_policy.1 {} "a" (some "db") c5parsed (some "/static/covers/a.jpg")
      c5st true (by decide),
   C5_cover_url_policy.2 cfgS3 coverOutOk (some "https://remote/x") "pg"
      "https://b.s3.ap-northeast-2.amazonaws.com/pg.jpg" (by decide)⟩

/-- Counterexample for C5 as stated: when cover acquisition fails for a page
whose record carries a cover (here: the download returns nothing), the
persisted cover URL is exactly the original time-limited remote signed URL
from the record — not absent and not a stable reference. -/
theorem C5_counterexample :
    ((getPage (sync_notion_pages cfgPosts envNone
        [{ status := 200, results := [itemSignedCover] }] {}).db "a").map (fun p => p.coverUrl))
      = some (some signedUrl) ∧
    ((itemSignedCover.cover.bind (fun c => c.file)).bind (fun f => f.url)) = some signedUrl ∧
    (sync_notion_pages cfgPosts envNone
        [{ status := 200, results := [itemSignedCover] }] {}).coverCalls = ["a"] := by
  refine ⟨by decide, by decide, by decide⟩

/-! ## Claim C4 -/

/-- Fixture: a record whose merged tag list carries the same tag id twice. -/
def dupTagsField : TagsField :=
  { multiSelect := some [{ id := some "t1", name := some "x" },
                         { id := some "t1", name := some "x" }] }

def itemDupTags : Item :=
  { id := some "p"
    parentDatabaseId := some "db"
    lastEditedTime := some (.good 1)
    props := { tagsKr := some dupTagsField } }

/-- Claim C4 (amended): after an upsert the page's tag association LIST is
rebuilt as exactly one entry per occurrence of a non-falsy tag id in the
record's tag list, so the SET of associated tag ids equals exactly the ids in
the record (no stale association survives); but duplicates are NOT collapsed:
a duplicated tag id yields a duplicated association row, which violates the
`page_tags` composite primary key when the pass commits — duplicate input is
rejected by the database rather than handled idempotently. -/
theorem C4_tag_replacement :
    (∀ (st : DbState) (pid : String) (dbid : Option String) (parsed : Parsed)
        (cover : Option String) (st' : DbState) (isNew : Bool),
      _upsert_page_and_relations st pid dbid parsed cover = .ok (st', isNew) →
      ∃ P, getPage st' pid = some P ∧ P.tags = tagIdsOf parsed.tagsProp ∧
        (∀ tid, tid ∈ P.tags ↔ ∃ t ∈ parsed.tagsProp, t.id = some tid ∧ tid ≠ "")) ∧
    (∀ (st : DbState) (pid : String) (dbid : Option String) (parsed : Parsed)
        (cover : Option String) (st' : DbState) (isNew : Bool),
      _upsert_page_and_relations st pid dbid parsed cover = .ok (st', isNew) →
      ¬ (tagIdsOf parsed.tagsProp).Nodup → pageTagsPkViolated st' = true) := by
  constructor
  · intro st pid dbid parsed cover st' isNew h
    obtain ⟨P, le, hgp, -, -, -, -, htags, -⟩ := upsert_getPage_self h
    refine ⟨P, hgp, htags, fun tid => ?_⟩
    rw [htags]
    unfold tagIdsOf
    rw [List.mem_filterMap]
    constructor
    · rintro ⟨t, hmem, hf⟩
      refine ⟨t, hmem, ?_⟩
      cases hti : t.id with
      | none => rw [hti] at hf; simp at hf
      | some s =>
        rw [hti] at hf
        by_cases h0 : s = ""
        · simp [h0] at hf
        · simp only [h0, if_false] at hf
          obtain rfl : s = tid := by simpa using hf
          exact ⟨rfl, h0⟩
    · rintro ⟨t, hmem, hid, h0⟩
      exact ⟨t, hmem, by rw [hid]; simp [h0]⟩
  · intro st pid dbid parsed cover st' isNew h hdup
    obtain ⟨P, le, hgp, -, -, -, -, htags, -⟩ := upsert_getPage_self h
    have hmem : P ∈ st'.pages := (mem_of_getPage_eq_some hgp).1
    unfold pageTagsPkViolated
    rw [List.any_eq_true]
    exact ⟨P, hmem, by simp [htags, hdup]⟩

/-- The upsert result for the duplicated-tags record. -/
def c4st : DbState :=
  match _upsert_page_and_relations {} "p" (some "db") (_parse_properties itemDupTags) none with
  | .ok (st, _) => st
  | .error _ => {}

/-- Witness for C4: the duplicated-tags fixture yields a page whose
association list holds both occurrences, and the commit-time key check
reports the violation. -/
theorem C4_tag_replacement_witness :
    (∃ P, getPage c4st "p" = some P ∧
      P.tags = tagIdsOf (_parse_properties itemDupTags).tagsProp ∧
      (∀ tid, tid ∈ P.tags ↔
        ∃ t ∈ (_parse_properties itemDupTags).tagsProp, t.id = some tid ∧ tid ≠ "")) ∧
    pageTagsPkViolated c4st = true :=
  ⟨C4_tag_replacement.1 {} "p" (some "db") (_parse_properties itemDupTags) none
      c4st true rfl,
   C4_tag_replacement.2 {} "p" (some "db") (_parse_properties itemDupTags) none
      c4st true rfl (by decide)⟩

/-- Counterexample for C4 as stated: a record with a duplicated tag id is
NOT accepted idempotently — the association list holds the id twice, one
entry per occurrence, and the pass that processes it aborts at commit with
the integrity error of the `page_tags` composite primary key, rolling the
store back. -/
theorem C4_counterexample :
    ((getPage c4st "p").map (fun p => p.tags)) = some ["t1", "t1"] ∧
    (sync_notion_pages cfgPosts envNone
        [{ status := 200, results := [itemDupTags] }] {}).result = .error .integrityError ∧
    (sync_notion_pages cfgPosts envNone
        [{ status := 200, results := [itemDupTags] }] {}).db = ({} : DbState) := by
  refine ⟨by decide, by decide, by decide⟩

/-! ## Claim C1 -/

lemma loopIds_eq_incoming {results : List Item}
    (hids : ∀ it ∈ results, ∃ s, it.id = some s ∧ s ≠ "") :
    loopIds results = _compute_incoming_ids results := by
  induction results with
  | nil => rfl
  | cons it rest ih =>
    obtain ⟨s, hs, h0⟩ := hids it (List.mem_cons_self it rest)
    simp only [loopIds, _compute_incoming_ids, List.filterMap_cons, hs, h0, ite_true,
      if_pos (by exact h0)]
    rw [show rest.filterMap (fun i => i.id) = loopIds rest from rfl,
      ih (fun a ha => hids a (List.mem_cons_of_mem _ ha))]
    rfl

lemma incoming_ne_nil {results : List Item}
    (hids : ∀ it ∈ results, ∃ s, it.id = some s ∧ s ≠ "")
    (hne : results ≠ []) : _compute_incoming_ids results ≠ [] := by
  cases results with
  | nil => exact absurd rfl hne
  | cons it rest =>
    obtain ⟨s, hs, h0⟩ := hids it (List.mem_cons_self it rest)
    simp [_compute_incoming_ids, List.filterMap_cons, hs, h0]

lemma mem_incoming_iff {results : List Item} {x : String} :
    x ∈ _compute_incoming_ids results ↔ (∃ it ∈ results, it.id = some x) ∧ x ≠ "" := by
  unfold _compute_incoming_ids
  rw [List.mem_filterMap]
  constructor
  · rintro ⟨it, hmem, hf⟩
    cases hid : it.id with
    | none => rw [hid] at hf; simp at hf
    | some s =>
      rw [hid] at hf
      by_cases h0 : s = ""
      · simp [h0] at hf
      · simp only [ne_eq, h0, not_false_iff, if_true] at hf
        obtain rfl : s = x := by simpa using hf
        exact ⟨⟨it, hmem, hid⟩, h0⟩
  · rintro ⟨⟨it, hmem, hid⟩, h0⟩
    exact ⟨it, hmem, by rw [hid]; simp [h0]⟩

lemma filterMap_nodup_unique {α β : Type} {f : α → Option β} {l : List α}
    (h : (l.filterMap f).Nodup) {a b : α} (ha : a ∈ l) (hb : b ∈ l) {x : β}
    (hfa : f a = some x) (hfb : f b = some x) : a = b := by
  induction l with
  | nil => cases ha
  | cons c rest ih =>
    rcases List.mem_cons.mp ha with rfl | ha' <;> rcases List.mem_cons.mp hb with rfl | hb'
    · rfl
    · exfalso
      rw [List.filterMap_cons, hfa] at h
      exact (List.nodup_cons.mp h).1 (List.mem_filterMap.mpr ⟨b, hb', hfb⟩)
    · exfalso
      rw [List.filterMap_cons, hfb] at h
      exact (List.nodup_cons.mp h).1 (List.mem_filterMap.mpr ⟨a, ha', hfa⟩)
    · refine ih ?_ ha' hb'
      rw [List.filterMap_cons] at h
      cases hc : f c with
      | none => rw [hc] at h; exact h
      | some y => rw [hc] at h; exact (List.nodup_cons.mp h).2

lemma incoming_unique {results : List Item}
    (hnodup : (_compute_incoming_ids results).Nodup)
    {a b : Item} (ha : a ∈ results) (hb : b ∈ results) {x : String}
    (hxa : a.id = some x) (hxb : b.id = some x) (hx : x ≠ "") : a = b := by
  refine filterMap_nodup_unique hnodup ha hb (x := x) ?_ ?_
  · rw [hxa]; simp [hx]
  · rw [hxb]; simp [hx]

lemma iso_to_dt_some_inv {v : Option IsoStr} {t : Nat}
    (h : _iso_to_dt v = Except.ok (some t)) : v = some (.good t) := by
  cases v with
  | none => simp [_iso_to_dt] at h
  | some s =>
    cases s with
    | good t' =>
      have : t' = t := by simpa [_iso_to_dt, fromisoformat, Except.map] using h
      rw [this]
    | bad => simp [_iso_to_dt, fromisoformat, Except.map] at h

lemma skipCheck_some_iff {p : PageRow} {le : Option Nat} :
    skipCheck (some p) le = true ↔ ∃ t, le = some t ∧ p.lastEditedTime = some t := by
  cases le with
  | none => simp [skipCheck]
  | some t =>
    cases hp : p.lastEditedTime with
    | none => simp [skipCheck, hp]
    | some s =>
      simp only [skipCheck, hp, decide_eq_true_eq, Option.some.injEq]
      constructor
      · intro h; exact ⟨t, rfl, h⟩
      · rintro ⟨t', rfl, h⟩; exact h

/-- Claim C1 (amended): after a successful pass over a snapshot with unique,
well-formed ids, a stored page of the synced collection ends soft-deleted
exactly when (a) the snapshot was non-empty and its id was absent from it, or
(b) it was already soft-deleted and was NOT re-processed — either the
snapshot was empty (reconciliation skipped) or its item re-appeared with an
unchanged last-edited timestamp and was skipped, in which case the flag is
NOT cleared.  In particular the flag is set only by the missing-page
reconciliation, and a re-appearing soft-deleted page is only cleared when it
is actually re-processed. -/
theorem C1_soft_delete_flag_characterisation
    (cfg : SyncConfig) (env : SyncEnv) (attempts : List HttpResponse) (db0 : DbState)
    (dbid : String) (results : List Item) (r : SyncResult) (p0 : PageRow)
    (hdbid : cfg.postDatabaseId = some dbid) (hne : dbid ≠ "")
    (hfetch : fetch_notion_data_for_db dbid attempts = .ok results)
    (hids : ∀ it ∈ results, ∃ s, it.id = some s ∧ s ≠ "")
    (hnodup : (_compute_incoming_ids results).Nodup)
    (hpk : (db0.pages.map (·.id)).Nodup)
    (hok : (sync_notion_pages cfg env attempts db0).result = .ok r)
    (hmem : p0 ∈ db0.pages) (hdb : p0.databaseId = some dbid) :
    ∃ p, getPage (sync_notion_pages cfg env attempts db0).db p0.id = some p ∧
      (p.isDeleted = true ↔
        ((results ≠ [] ∧ p0.id ∉ _compute_incoming_ids results) ∨
         (p0.isDeleted = true ∧
           (results = [] ∨
            ∃ it ∈ results, it.id = some p0.id ∧
              ∃ t, it.lastEditedTime = some (.good t) ∧ p0.lastEditedTime = some t)))) := by
  rw [sync_pages_eq_runPass hdbid hne hfetch] at hok ⊢
  obtain ⟨calls, db2, c, u, hloop, hpkv, hr, hdb2, -, -⟩ := runPass_ok_inv hok
  rw [hdb2]
  have hres : (syncLoop cfg.cover env results
      (_mark_missing_pages_deleted db0 (_compute_incoming_ids results) dbid) 0 0 []).res
      = .ok (db2, c, u) := by rw [hloop]
  have hgp0 : getPage db0 p0.id = some p0 := getPage_eq_some_of_mem hpk hmem
  have hmark := mark_getPage db0 (_compute_incoming_ids results) dbid p0.id
  rw [hgp0] at hmark
  simp only [Option.map_some'] at hmark
  by_cases hin : p0.id ∈ _compute_incoming_ids results
  · -- present in the snapshot: the reconciliation leaves the row alone
    have hcond : ¬ (_compute_incoming_ids results ≠ [] ∧ p0.databaseId = some dbid ∧
        p0.id ∉ _compute_incoming_ids results) := by
      rintro ⟨-, -, hnin⟩; exact hnin hin
    rw [if_neg hcond] at hmark
    obtain ⟨⟨it, hitmem, hitid⟩, hid0⟩ := mem_incoming_iff.mp hin
    obtain ⟨le, hle, hdisj⟩ := syncLoop_final_char
      (by rw [loopIds_eq_incoming hids]; exact hnodup) hres hitmem hitid
    rcases hdisj with ⟨hskip, hfin⟩ | ⟨hskip, P, hfin, hPdel, hPle⟩
    · -- skipped as unchanged: the flag (set or not) survives untouched
      rw [hmark] at hfin hskip
      obtain ⟨t, rfl, hty⟩ := skipCheck_some_iff.mp hskip
      have hitle : it.lastEditedTime = some (.good t) := iso_to_dt_some_inv hle
      refine ⟨p0, hfin, ?_⟩
      constructor
      · intro hdel
        exact Or.inr ⟨hdel, Or.inr ⟨it, hitmem, hitid, t, hitle, hty⟩⟩
      · rintro (⟨-, hnin⟩ | ⟨hdel, -⟩)
        · exact absurd hin hnin
        · exact hdel
    · -- re-processed: the upsert clears the flag
      rw [hmark] at hskip
      refine ⟨P, hfin, ?_⟩
      rw [hPdel]
      constructor
      · intro h; exact absurd h (by simp)
      · rintro (⟨-, hnin⟩ | ⟨hdel, hcase⟩)
        · exact absurd hin hnin
        · rcases hcase with hnil | ⟨it', hit'mem, hit'id, t, hit'le, hty⟩
          · subst hnil; cases hitmem
          · have heq : it' = it := incoming_unique hnodup hit'mem hitmem hit'id hitid hid0
            subst heq
            have hle' : _iso_to_dt it'.lastEditedTime = Except.ok (some t) := by
              rw [hit'le]; rfl
            rw [hle] at hle'
            obtain rfl : le = some t := Except.ok.injEq .. ▸ hle'
            have hsk : skipCheck (some p0) (some t) = true :=
              skipCheck_some_iff.mpr ⟨t, rfl, hty⟩
            rw [hsk] at hskip
            exact absurd hskip (by simp)
  · by_cases hresnil : results = []
    · -- empty snapshot: reconciliation skipped, loop empty
      subst hresnil
      have hdb2' : db2 = db0 := by
        simp only [syncLoop, Except.ok.injEq, Prod.mk.injEq] at hres
        exact hres.1.symm
      refine ⟨p0, by rw [hdb2']; exact hgp0, ?_⟩
      constructor
      · intro h
        exact Or.inr ⟨h, Or.inl rfl⟩
      · rintro (⟨hne', -⟩ | ⟨h, -⟩)
        · exact absurd rfl hne'
        · exact h
    · -- non-empty snapshot and absent: the reconciliation sets the flag
      have hincne : _compute_incoming_ids results ≠ [] := incoming_ne_nil hids hresnil
      rw [if_pos ⟨hincne, hdb, hin⟩] at hmark
      have hfr : getPage db2 p0.id = getPage
          (_mark_missing_pages_deleted db0 (_compute_incoming_ids results) dbid) p0.id :=
        syncLoop_frame (by rw [loopIds_eq_incoming hids]; exact hin) hres
      refine ⟨{ p0 with isDeleted := true }, by rw [hfr, hmark], ?_⟩
      constructor
      · intro _
        exact Or.inl ⟨hresnil, hin⟩
      · intro _
        rfl

/-- Fixtures for C1: a soft-deleted page re-appearing with an unchanged
last-edited timestamp, plus a second stored page absent from the snapshot. -/
def pageDeletedA : PageRow :=
  { id := "a", databaseId := some "db", lastEditedTime := some 5, isDeleted := true }

def pageC : PageRow := { id := "c", databaseId := some "db" }

def dbC1 : DbState := { pages := [pageDeletedA] }

def dbC1w : DbState := { pages := [pageDeletedA, pageC] }

def itemC1 : Item :=
  { id := some "a"
    parentDatabaseId := some "db"
    lastEditedTime := some (.good 5) }

/-- Counterexample for C1 as stated: page `a` IS present in the pass's
fetched snapshot, yet after the (successful) pass its soft-deleted flag is
still set — the re-appearance was skipped by the unchanged-timestamp test,
so the flag is not cleared by that pass. -/
theorem C1_counterexample :
    ((getPage (sync_notion_pages cfgPosts envNone
        [{ status := 200, results := [itemC1] }] dbC1).db "a").map (fun p => p.isDeleted))
      = some true ∧
    ("a" ∈ _compute_incoming_ids [itemC1]) ∧
    (sync_notion_pages cfgPosts envNone [{ status := 200, results := [itemC1] }] dbC1).result
      = .ok ⟨0, 0, 1⟩ := by
  refine ⟨by decide, by decide, by decide⟩

/-- Witness for C1 (amended), at the stored page `c` of a snapshot that only
contains `a`: the characterisation applies and (since `c` is absent from the
non-empty snapshot) its flag ends set. -/
theorem C1_soft_delete_flag_characterisation_witness :
    ∃ p, getPage (sync_notion_pages cfgPosts envNone
        [{ status := 200, results := [itemC1] }] dbC1w).db pageC.id = some p ∧
      (p.isDeleted = true ↔
        ((([itemC1] : List Item) ≠ [] ∧ pageC.id ∉ _compute_incoming_ids [itemC1]) ∨
         (pageC.isDeleted = true ∧
           (([itemC1] : List Item) = [] ∨
            ∃ it ∈ [itemC1], it.id = some pageC.id ∧
              ∃ t, it.lastEditedTime = some (.good t) ∧ pageC.lastEditedTime = some t)))) :=
  C1_soft_delete_flag_characterisation cfgPosts envNone
    [{ status := 200, results := [itemC1] }] dbC1w "db" [itemC1] ⟨0, 0, 1⟩ pageC
    rfl (by decide) (by decide)
    (fun it hit => by
      rcases List.mem_singleton.mp hit with rfl
      exact ⟨"a", rfl, by decide⟩)
    (by decide) (by decide) (by decide) (by decide) (by decide)

/-! ## Claim C3 -/

/-- Claim C3: change detection.  (i) An incoming item whose parsed
last-edited timestamp equals the stored page's timestamp (both present) is
skipped outright: the loop continues on the remaining items with the same
store, the same counters and no cover-pipeline invocation — no extraction,
no cover download, no write for that page.  (ii) Consequently, under the
interface guarantee that every record carries an id and a well-formed
last-edited timestamp (with snapshot ids unique), running the pass a second
time against an unchanged snapshot returns created = 0 and updated = 0, the
store is bit-for-bit unchanged, and the cover pipeline is never invoked. -/
theorem C3_unchanged_pass_is_noop :
    (∀ (cfg : CoverConfig) (env : SyncEnv) (item : Item) (rest : List Item)
        (db : DbState) (c u : Nat) (calls : List String) (pid : String) (p : PageRow) (t : Nat),
      item.id = some pid → getPage db pid = some p →
      p.lastEditedTime = some t → item.lastEditedTime = some (.good t) →
      syncLoop cfg env (item :: rest) db c u calls = syncLoop cfg env rest db c u calls) ∧
    (∀ (cfg : SyncConfig) (env : SyncEnv) (attempts : List HttpResponse) (db0 : DbState)
        (dbid : String) (results : List Item) (r : SyncResult),
      cfg.postDatabaseId = some dbid → dbid ≠ "" →
      fetch_notion_data_for_db dbid attempts = .ok results →
      (∀ it ∈ results, ∃ s, it.id = some s ∧ s ≠ "") →
      (∀ it ∈ results, ∃ t, it.lastEditedTime = some (.good t)) →
      (_compute_incoming_ids results).Nodup →
      (db0.pages.map (·.id)).Nodup →
      (sync_notion_pages cfg env attempts db0).result = .ok r →
      (sync_notion_pages cfg env attempts (sync_notion_pages cfg env attempts db0).db).db
        = (sync_notion_pages cfg env attempts db0).db ∧
      (sync_notion_pages cfg env attempts (sync_notion_pages cfg env attempts db0).db).result
        = .ok ⟨0, 0, results.length⟩ ∧
      (sync_notion_pages cfg env attempts (sync_notion_pages cfg env attempts db0).db).coverCalls
        = []) := by
  constructor
  · intro cfg env item rest db c u calls pid p t hid hgp hple hlet
    have hpar : _iso_to_dt item.lastEditedTime = Except.ok (some t) := by rw [hlet]; rfl
    have hskip : skipCheck (getPage db pid) (some t) = true := by
      rw [hgp]; exact skipCheck_some_iff.mpr ⟨t, rfl, hple⟩
    simp [syncLoop, hid, hpar, hskip]
  · intro cfg env attempts db0 dbid results r hdbid hne hfetch hids hts hnodup hpk hok
    simp only [sync_pages_eq_runPass hdbid hne hfetch] at hok ⊢
    obtain ⟨calls, db2, c, u, hloop, hpkv, hr, hdb2, -, -⟩ := runPass_ok_inv hok
    rw [hdb2]
    have hres1 : (syncLoop cfg.cover env results
        (_mark_missing_pages_deleted db0 (_compute_incoming_ids results) dbid) 0 0 []).res
        = .ok (db2, c, u) := by rw [hloop]
    have hnd1 : ((_mark_missing_pages_deleted db0
        (_compute_incoming_ids results) dbid).pages.map (·.id)).Nodup := by
      rw [mark_pages_ids]; exact hpk
    have hnd2 : (db2.pages.map (·.id)).Nodup := syncLoop_nodup hres1 hnd1
    have hloopids : loopIds results = _compute_incoming_ids results := loopIds_eq_incoming hids
    have hinv : ∀ it ∈ results, ∀ pid, it.id = some pid →
        ∃ P t, getPage db2 pid = some P ∧ P.lastEditedTime = some t ∧
          it.lastEditedTime = some (.good t) := by
      intro it hit pid hid
      obtain ⟨t, hlet⟩ := hts it hit
      obtain ⟨le, hle, hdisj⟩ := syncLoop_final_char
        (by rw [hloopids]; exact hnodup) hres1 hit hid
      have hle2 : _iso_to_dt it.lastEditedTime = Except.ok (some t) := by rw [hlet]; rfl
      rw [hle] at hle2
      obtain rfl : le = some t := Except.ok.injEq .. ▸ hle2
      rcases hdisj with ⟨hskip, hfin⟩ | ⟨-, P, hfin, -, hPle⟩
      · cases hq : getPage (_mark_missing_pages_deleted db0
            (_compute_incoming_ids results) dbid) pid with
        | none => rw [hq] at hskip; simp [skipCheck] at hskip
        | some q =>
          rw [hq] at hskip hfin
          obtain ⟨t', ht', hqle⟩ := skipCheck_some_iff.mp hskip
          refine ⟨q, t, hfin, ?_, hlet⟩
          have htt : t = t' := Option.some.injEq .. ▸ ht'
          rw [htt]
          exact hqle
      · exact ⟨P, t, hfin, hPle, hlet⟩
    by_cases hresnil : results = []
    · subst hresnil
      simp only [syncLoop, Except.ok.injEq, Prod.mk.injEq] at hres1
      unfold runPass
      simp [syncLoop, hpkv, _mark_missing_pages_deleted, _compute_incoming_ids]
    · have hmark2 : _mark_missing_pages_deleted db2 (_compute_incoming_ids results) dbid
          = db2 := by
        apply mark_eq_self_of_marked
        intro p hp hpdb hpnin
        have hgp : getPage db2 p.id = some p := getPage_eq_some_of_mem hnd2 hp
        have hfr : getPage db2 p.id = getPage
            (_mark_missing_pages_deleted db0 (_compute_incoming_ids results) dbid) p.id :=
          syncLoop_frame (by rw [hloopids]; exact hpnin) hres1
        rw [hfr, mark_getPage] at hgp
        cases hg0 : getPage db0 p.id with
        | none => rw [hg0] at hgp; simp at hgp
        | some p0 =>
          rw [hg0] at hgp
          simp only [Option.map_some', Option.some.injEq] at hgp
          obtain ⟨hp0mem, hp0id⟩ := mem_of_getPage_eq_some hg0
          by_cases hc : _compute_incoming_ids results ≠ [] ∧ p0.databaseId = some dbid ∧
              p0.id ∉ _compute_incoming_ids results
          · rw [if_pos hc] at hgp
            rw [← hgp]
          · rw [if_neg hc] at hgp
            exfalso
            apply hc
            refine ⟨incoming_ne_nil hids hresnil, ?_, ?_⟩
            · rw [hgp]; exact hpdb
            · rw [hp0id]; exact hpnin
      have hloop2 : syncLoop cfg.cover env results db2 0 0 [] = ⟨[], .ok (db2, 0, 0)⟩ := by
        apply syncLoop_skip_all
        intro it hit
        obtain ⟨s, hid, -⟩ := hids it hit
        obtain ⟨P, t, hgp, hPle, hlet⟩ := hinv it hit s hid
        exact ⟨s, t, hid, by rw [hlet]; rfl, by rw [hgp]; exact skipCheck_some_iff.mpr ⟨t, rfl, hPle⟩⟩
      unfold runPass
      rw [hmark2, hloop2]
      simp [hpkv]

/-- Witness for C3: syncing a one-record snapshot into an empty store and
then running the identical pass again changes nothing, reports
created = 0 / updated = 0 / total = 1 and never invokes the cover pipeline. -/
theorem C3_unchanged_pass_is_noop_witness :
    (sync_notion_pages cfgPosts envNone [{ status := 200, results := [itemPlain] }]
        (sync_notion_pages cfgPosts envNone
          [{ status := 200, results := [itemPlain] }] {}).db).db
      = (sync_notion_pages cfgPosts envNone [{ status := 200, results := [itemPlain] }] {}).db ∧
    (sync_notion_pages cfgPosts envNone [{ status := 200, results := [itemPlain] }]
        (sync_notion_pages cfgPosts envNone
          [{ status := 200, results := [itemPlain] }] {}).db).result
      = .ok ⟨0, 0, 1⟩ ∧
    (sync_notion_pages cfgPosts envNone [{ status := 200, results := [itemPlain] }]
        (sync_notion_pages cfgPosts envNone
          [{ status := 200, results := [itemPlain] }] {}).db).coverCalls
      = [] := by
  have h := C3_unchanged_pass_is_noop.2 cfgPosts envNone
    [{ status := 200, results := [itemPlain] }] {} "db" [itemPlain] ⟨1, 0, 1⟩
    rfl (by decide) (by decide)
    (fun it hit => by
      rcases List.mem_singleton.mp hit with rfl
      exact ⟨"a", rfl, by decide⟩)
    (fun it hit => by
      rcases List.mem_singleton.mp hit with rfl
      exact ⟨1, rfl⟩)
    (by decide) (by decide) (by decide)
  exact h
